import Mathlib

/-!
# Verification of `scripts/p3x-assembly.py`

A shallow embedding, in Lean 4, of the read-classification, registration and
pipeline-orchestration logic of `p3x-assembly.py` (a Python 2 script), together
with theorems settling the claims about it.

Modelling conventions, used throughout:

* Python strings are Lean `String`s; where character-by-character reasoning is
  needed we work on `String.data : List Char`.
* File contents are modelled as the list of their lines *without* the trailing
  newline character; files are assumed to end in a newline, so that
  `len(line)-1` in the Python (which strips the newline) corresponds to the
  length of the modelled line, and `text.split("\n")` corresponds to the line
  list with one trailing empty string appended.
* Python `None`-or-value variables become `Option`; Python truthiness of such a
  variable (`if x:`) is modelled explicitly (`none` and `some 0` are falsy for
  an int-or-None variable, the empty list/string is falsy, etc.).
* Python exceptions (KeyError, TypeError, ZeroDivisionError, IOError) are
  modelled with `Except String`; an uncaught exception aborts the script, so no
  state after an `.error` is observable.
* Python 2 `/` on non-negative ints is `Nat` division; float arithmetic on
  depth data is modelled over `ℚ`.
* The filesystem is modelled as a flat association list from file name to
  content; path resolution (working directory vs. current directory) is
  abstracted to that flat namespace.
-/

namespace P3Assembly

/-- Python truthiness of an int-or-None variable: `None` and `0` are falsy. -/
def optNatTruthy : Option Nat → Bool
  | none => false
  | some n => n != 0

/-- `s.startswith(pre)`, character-wise. -/
def pyStartsWith (s pre : String) : Bool :=
  pre.data.isPrefixOf s.data

/-- `s.endswith(suf)`, character-wise. -/
def pyEndsWith (s suf : String) : Bool :=
  suf.data.isSuffixOf s.data

/-- `c in s` for a single character. -/
def pyContainsChar (s : String) (c : Char) : Bool :=
  s.data.contains c

/-- `s.split(sep)` for a one-character separator, character-wise, Python
semantics: splitting the empty string yields `[""]`. -/
def splitOnCharAux (sep : Char) : List Char → List (List Char)
  | [] => [[]]
  | c :: rest =>
    let r := splitOnCharAux sep rest
    if c == sep then [] :: r
    else
      match r with
      | g :: gs => (c :: g) :: gs
      | [] => [[c]]

/-- `s.split(sep)` for a one-character separator. -/
def pySplitOnChar (sep : Char) (s : String) : List String :=
  (splitOnCharAux sep s.data).map String.mk

/-- `s.split(sep)[0]` for a one-character separator (the head always
exists). -/
def pySplitHead (sep : Char) (s : String) : String :=
  (pySplitOnChar sep s).headD ""

/-- Number of fields of Python `s.split(":")` (used by `inferPlatform`). -/
def pySplitColonCount (s : String) : Nat :=
  (pySplitOnChar ':' s).length

/-- Lexicographic string comparison, character-wise (`sorted` on a pair of
Python strings; byte order and character order agree on these ASCII
names). -/
def pyStrLeChars : List Char → List Char → Bool
  | [], _ => true
  | _ :: _, [] => false
  | c1 :: r1, c2 :: r2 =>
    if c1 < c2 then true
    else if c2 < c1 then false
    else pyStrLeChars r1 r2

/-- `a <= b` for Python strings. -/
def pyStrLe (a b : String) : Bool :=
  pyStrLeChars a.data b.data

/-- Python slice `s[a:b]` where both bounds are int-or-None (`None` defaults
to the start/end of the string; indices are non-negative in all uses). -/
def pySlice (s : List Char) (a b : Option Nat) : List Char :=
  (s.take (b.getD s.length)).drop (a.getD 0)

/-- Python whitespace (the `\s` class and the default `str.split`/`str.rstrip`
separators): space, tab, newline, carriage return, form feed, vertical tab. -/
def pyIsSpace (c : Char) : Bool :=
  c == ' ' || c == '\t' || c == '\n' || c == '\r' || c == '\x0b' || c == '\x0c'

/-- Python `s.rstrip()`: remove trailing whitespace. -/
def pyRstrip (s : String) : String :=
  String.mk (s.data.reverse.dropWhile pyIsSpace).reverse

/-- Python `s.split()[0]` (whitespace split): first whitespace-delimited
token. Total model returning `""` when the string has no token; every use in
the source is on a line known to start with the non-blank `>` marker. -/
def pySplitWsHead (s : String) : String :=
  String.mk ((s.data.dropWhile pyIsSpace).takeWhile (fun c => !pyIsSpace c))

/-- Model of the Python 2 expression `sorted(a, b) != ('1', '2')` exactly as
it appears at source lines 228, 306 and 664 (with `a` and `b` the two sliced
difference substrings).  In Python 2, `sorted`'s second positional parameter
is the comparison *function* `cmp`, so `b` is not sorted alongside `a`:
sorting `list(a)` with fewer than two elements never invokes `cmp` and
returns a *list*, and a list never compares equal to the *tuple*
`('1', '2')`, so the expression evaluates to `True` (mismatch).  With two or
more elements the string `b` is invoked as a function, raising `TypeError`. -/
def sortedCmpNeTuple (a b : List Char) : Except String Bool :=
  if a.length ≤ 1 then .ok true
  else .error ("TypeError: str object " ++ String.mk b ++ " is not callable")

/-!
## `findSingleDifference` (source lines 541-557)

```python
def findSingleDifference(s1, s2):
    if len(s1) != len(s2):
        return None
    start = None
    end = None
    for i, (c1, c2) in enumerate(zip(s1, s2)):
        if c1 != c2:
            if end:
                return None
            if not start:
                start = i
        elif start and not end:
           end = i
    if start and not end:
        end = i+1
    return (start, end)
```

The `for` loop with its early `return None` is modelled by the recursive
`fsdGo`; `none` as the overall result is Python's `return None`, and a
`some (start, end)` result carries the two int-or-None components.  Note that
the Python tests `if end:`, `if not start:` and `if start ...` use int
truthiness, so an index of `0` stored in `start` behaves like `None`; the
model reproduces this with `optNatTruthy`.
-/

/-- The loop body of `findSingleDifference`: walks the zipped characters with
current index `i` and the `start`/`end` registers; `none` models the early
`return None` when a second difference run begins. -/
def fsdGo : List (Char × Char) → Nat → Option Nat → Option Nat →
    Option (Option Nat × Option Nat)
  | [], _, start, e => some (start, e)
  | (c1, c2) :: rest, i, start, e =>
    if c1 != c2 then
      if optNatTruthy e then
        none
      else if !optNatTruthy start then
        fsdGo rest (i + 1) (some i) e
      else
        fsdGo rest (i + 1) start e
    else if optNatTruthy start && !optNatTruthy e then
      fsdGo rest (i + 1) start (some i)
    else
      fsdGo rest (i + 1) start e

/-- `findSingleDifference` over the character lists of the two strings.
After the loop, `end = i+1` uses the final loop index, which equals
`s1.length - 1`; it only executes when `start` is truthy, which forces the
loop to have run, so the assignment is modelled as `s1.length`. -/
def findSingleDifference (s1 s2 : List Char) : Option (Option Nat × Option Nat) :=
  if s1.length ≠ s2.length then
    none
  else
    match fsdGo (s1.zip s2) 0 none none with
    | none => none
    | some (start, e) =>
      if optNatTruthy start && !optNatTruthy e then
        some (start, some s1.length)
      else
        some (start, e)

/-- String-level wrapper for `findSingleDifference`. -/
def findSingleDifferenceS (s1 s2 : String) : Option (Option Nat × Option Nat) :=
  findSingleDifference s1.data s2.data

/-!
## Regular expressions used by `inferPlatform` and the SRA filename test

The source uses `re.match` with patterns built solely from literal
characters, single character classes, and one-or-more repetitions of
character classes, optionally `$`-anchored.  `re.match` requires the match to
begin at the start of the string; without `$` a prefix match suffices.  The
engine below implements exactly that fragment, with full backtracking for
the `+` repetitions (so greedy/backtracking Python semantics and this
existential semantics agree on whether a match exists).
-/

/-- One token of a regex: a literal character, a single character-class
occurrence, or a one-or-more repetition of a character class. -/
inductive RTok where
  | lit (c : Char)
  | cls (f : Char → Bool)
  | plus (f : Char → Bool)

/-- Fuel-driven backtracking matcher.  `anchored` is whether the pattern
ends in `$`.  Fuel bounds the recursion; every recursive call consumes one
character, so `s.length + 1` fuel always suffices. -/
def reMatchF : Nat → List RTok → Bool → List Char → Bool
  | 0, _, _, _ => false
  | _ + 1, [], anchored, s => !anchored || s.isEmpty
  | fuel + 1, .lit c :: rest, anchored, s =>
    match s with
    | [] => false
    | x :: xs => x == c && reMatchF fuel rest anchored xs
  | fuel + 1, .cls f :: rest, anchored, s =>
    match s with
    | [] => false
    | x :: xs => f x && reMatchF fuel rest anchored xs
  | fuel + 1, .plus f :: rest, anchored, s =>
    match s with
    | [] => false
    | x :: xs =>
      f x && (reMatchF fuel rest anchored xs || reMatchF fuel (.plus f :: rest) anchored xs)

/-- `re.match(pattern, s)` viewed as a boolean: does the pattern match a
prefix of `s` (all of `s` when `anchored`)? -/
def reMatch (pattern : List RTok) (anchored : Bool) (s : String) : Bool :=
  reMatchF (s.length + 1) pattern anchored s.data

/-- A literal string as a sequence of regex tokens. -/
def reLits (s : String) : List RTok :=
  s.data.map RTok.lit

/-- The `\S` class (non-whitespace). -/
def reNonSpace : Char → Bool := fun c => !pyIsSpace c

/-- The `\d` class. -/
def reDigit : Char → Bool := Char.isDigit

/-- `@[A-Z]\S+:\d+:\S+:\d+:\d+:\d+:\d+ \S+:\S+:\S+:\S+$` (newer Illumina). -/
def reIlluminaNew : List RTok :=
  [.lit '@', .cls Char.isUpper, .plus reNonSpace, .lit ':', .plus reDigit, .lit ':',
   .plus reNonSpace, .lit ':', .plus reDigit, .lit ':', .plus reDigit, .lit ':',
   .plus reDigit, .lit ':', .plus reDigit, .lit ' ', .plus reNonSpace, .lit ':',
   .plus reNonSpace, .lit ':', .plus reNonSpace, .lit ':', .plus reNonSpace]

/-- `@\S+:\S+:\S+:\S+:\S+#\S+/\S+$` (older Illumina). -/
def reIlluminaOld : List RTok :=
  [.lit '@', .plus reNonSpace, .lit ':', .plus reNonSpace, .lit ':', .plus reNonSpace,
   .lit ':', .plus reNonSpace, .lit ':', .plus reNonSpace, .lit '#', .plus reNonSpace,
   .lit '/', .plus reNonSpace]

/-- `@[^:]+:[^:]+:[^:]+$` (IonTorrent). -/
def reIonTorrent : List RTok :=
  [.lit '@', .plus (fun c => c != ':'), .lit ':', .plus (fun c => c != ':'), .lit ':',
   .plus (fun c => c != ':')]

/-- `@[SED]RR\d+\.\d+` (SRA-default short-read id; not `$`-anchored). -/
def reSraDefault : List RTok :=
  [.lit '@', .cls (fun c => c == 'S' || c == 'E' || c == 'D'), .lit 'R', .lit 'R',
   .plus reDigit, .lit '.', .plus reDigit]

/-- `@\S+/\S+/\S+_\S+$` (PacBio CCS subread). -/
def rePacbioCcs : List RTok :=
  [.lit '@', .plus reNonSpace, .lit '/', .plus reNonSpace, .lit '/', .plus reNonSpace,
   .lit '_', .plus reNonSpace]

/-- `@\S+/\S+$` (PacBio ZMW). -/
def rePacbioZmw : List RTok :=
  [.lit '@', .plus reNonSpace, .lit '/', .plus reNonSpace]

/-- `@[a-z0-9-]+\s+runid=\S+\s+read=\d+\s+ch=` (Nanopore; not `$`-anchored). -/
def reNanopore : List RTok :=
  [.lit '@', .plus (fun c => c.isLower || c.isDigit || c == '-'), .plus pyIsSpace] ++
  reLits "runid=" ++ [.plus reNonSpace, .plus pyIsSpace] ++
  reLits "read=" ++ [.plus reDigit, .plus pyIsSpace] ++ reLits "ch="

/-- `([SED]RR\d+)` (SRA accession filename test in
`categorize_anonymous_read_files`, source line 567; not `$`-anchored). -/
def reSraAccession : List RTok :=
  [.cls (fun c => c == 'S' || c == 'E' || c == 'D'), .lit 'R', .lit 'R', .plus reDigit]

/-!
## `inferPlatform` (source lines 392-425) and `sampleReads` (494-539)
-/

/-- `MAX_SHORT_READ_LENGTH` (source line 33). -/
def MAX_SHORT_READ_LENGTH : Nat := 600

/-- The short-read branch of `inferPlatform` (source lines 401-416), entered
when the length argument is below `MAX_SHORT_READ_LENGTH`; `none` means fall
through to the long-read patterns. -/
def inferPlatformShort (read_id : String) : Option String :=
  if pySplitColonCount read_id = 3 then some "iontorrent"
  else if pySplitColonCount read_id > 4 then some "illumina"
  else if reMatch reIlluminaNew true read_id then some "illumina"
  else if reMatch reIlluminaOld true read_id then some "illumina"
  else if reMatch reIonTorrent true read_id then some "iontorrent"
  else if reMatch reSraDefault false read_id then some "illumina"
  else none

/-- `inferPlatform(read_id, maxReadLength)`: best-effort platform
classification from a sample read id and a length statistic.  The length is
`ℚ`-valued because one caller passes an average rather than a maximum. -/
def inferPlatform (read_id : String) (maxReadLength : ℚ) : String :=
  if pyStartsWith read_id ">" then "fasta"
  else
    match (if maxReadLength < (MAX_SHORT_READ_LENGTH : ℚ) then inferPlatformShort read_id
           else none) with
    | some p => p
    | none =>
      if reMatch rePacbioCcs true read_id then "pacbio"
      else if reMatch rePacbioZmw true read_id then "pacbio"
      else if reMatch reNanopore false read_id then "nanopore"
      else "pacbio"

/-- File contents: the file's lines, without their trailing newline (files
are assumed to end in a newline). -/
abbrev FileData := List String

/-- The filesystem, flattened to one namespace (see the module comment). -/
abbrev FS := List (String × FileData)

/-- `os.path.exists` / opening a file in the flat filesystem model. -/
def fsLookup (fs : FS) (name : String) : Option FileData :=
  (fs.find? (fun p => p.1 == name)).map Prod.snd

/-- Association-list lookup (Python dict `d[k]` where the key may be absent,
yielding `none`). -/
def alookup {α : Type} (l : List (String × α)) (k : String) : Option α :=
  (l.find? (fun p => p.1 == k)).map Prod.snd

/-- Association-list update (Python dict `d[k] = v`): replace the first
binding of `k`, or append a new one. -/
def aset {α : Type} (l : List (String × α)) (k : String) (v : α) : List (String × α) :=
  match l with
  | [] => [(k, v)]
  | (k', v') :: rest => if k' == k then (k, v) :: rest else (k', v') :: aset rest k v

/-- The FASTQ branch of `sampleReads`: read-id sample (every 4th line's
first space-delimited field, starting at line 0). -/
def fastqSampleIds (lines : List String) : List String :=
  (lines.enum.filter (fun p => p.1 % 4 = 0)).map (fun p => pySplitHead ' ' p.2)

/-- The FASTQ branch of `sampleReads`: per-record lengths, `len(line)-1` on
every line of index `1 mod 4`.  The lines here come from `text.split("\n")`
and so carry no newline; the source still subtracts 1 (a quirk kept by the
model), which can reach `-1` on an empty line, hence `Int`. -/
def fastqSampleLens (lines : List String) : List Int :=
  (lines.enum.filter (fun p => p.1 % 4 = 1)).map (fun p => (p.2.length : Int) - 1)

/-- The FASTA branch of `sampleReads`: on each header line, append the length
of the sequence accumulated so far (including a spurious `0` at the first
header) and reset; other lines are right-stripped and accumulated. -/
def fastaSampleLens (lines : List String) : List Int :=
  (lines.foldl
    (fun (acc : List Int × Nat) line =>
      if pyStartsWith line ">" then (acc.1 ++ [(acc.2 : Int)], 0)
      else (acc.1, acc.2 + (pyRstrip line).length))
    ([], 0)).1

/-- `sampleReads(filename)` (source lines 494-539) on the file's content:
returns the read-id sample, the average sampled read length, and the list of
problem comments it appends to `details["problem"]`.  The fixed-size byte
prefix (`Default_bytes_to_sample`) is abstracted away: files are taken to be
no larger than the sampling window, so `text.split("\n")` is the full line
list plus one trailing empty string. -/
def sampleReads (content : FileData) (filename : String) :
    List String × ℚ × List String :=
  let lines := content ++ [""]
  let probs :=
    if lines.length < 2 then
      ["in sampleReads for " ++ filename ++ ": text sample lacks at least 2 lines"]
    else []
  let first := lines.headD ""
  let (ids, lens) : List String × List Int :=
    if pyStartsWith first "@" then (fastqSampleIds lines, fastqSampleLens lines)
    else if pyStartsWith first ">" then ([pySplitWsHead first], fastaSampleLens lines)
    else ([], [])
  let avg : ℚ := if lens.isEmpty then 0 else mkRat (lens.foldl (· + ·) 0) lens.length
  (ids, avg, probs)

/-!
## `categorize_anonymous_read_files` (source lines 559-687)

The pair-finding pass over anonymous read files.  SRA-named files are
diverted to the external SRA collaborator (`processSraFastqFiles`) and set
aside here; the pass otherwise produces the `valid_pairs` and
`valid_singles` sets, which the final loop of the source registers via
`registerReads`.  Python sets are modelled as duplicate-free lists in
insertion order (`setAdd`).
-/

/-- Insertion into a Python set, modelled on lists. -/
def setAdd (l : List String) (x : String) : List String :=
  if x ∈ l then l else l ++ [x]

/-- The mutable locals of `categorize_anonymous_read_files` threaded through
its loops, together with the `details` fields it appends to. -/
structure CatState where
  read_id_sample : List (String × List String)
  read_file_type : List (String × String)
  singleFiles : List String
  pairedFiles : List String
  problems : List String
  preTransforms : List String

/-- "Discordant fileTypes" problem comment (source lines 616 and 651). -/
def discordantMsg (f1 t1 f2 t2 : String) : String :=
  "Discordant fileTypes for " ++ f1 ++ "(" ++ t1 ++ ") vs " ++ f2 ++ "(" ++ t2 ++ ")"

/-- Sample a file and record its inferred type (source lines 587-591 and
636-646).  Opening a missing file raises `IOError`; an empty id sample makes
`read_id_sample[item][0]` raise `IndexError`. -/
def sampleAndType (fs : FS) (st : CatState) (f : String) : Except String CatState :=
  match fsLookup fs f with
  | none => .error ("IOError: cannot open " ++ f)
  | some content =>
    let (ids, avg, probs) := sampleReads content f
    match ids.head? with
    | none => .error ("IndexError: empty read id sample for " ++ f)
    | some id0 =>
      let t := inferPlatform id0 avg
      .ok { st with
        read_id_sample := aset st.read_id_sample f ids
        read_file_type := aset st.read_file_type f t
        problems := st.problems ++ probs
        preTransforms := st.preTransforms ++ ["interpreting " ++ f ++ " type as " ++ t] }

/-- First pass over non-SRA items (source lines 583-593): explicit pairs go
to `pairedFiles`; single names are sampled, typed and appended to
`singleFiles` (the `is not None` guard on the inferred type never fails,
since `inferPlatform` always returns a string). -/
def catSampleItem (fs : FS) (st : CatState) (item : String) : Except String CatState :=
  if pyContainsChar item ':' || pyContainsChar item '%' then
    .ok {st with pairedFiles := st.pairedFiles ++ [item]}
  else do
    let st' ← sampleAndType fs st item
    .ok {st' with singleFiles := st'.singleFiles ++ [item]}

/-- One filename pair of the candidate-pair scan (source lines 599-620):
accept when the names differ in a single character at an index `> 0`, the
preceding character is not a digit, the differing characters are `1`/`2`,
and the sampled file types agree.  Returns the `pairedFiles` entries and
problem comments to append.  The `TypeError` branch mirrors
`singleDiff[1]-singleDiff[0]` with an end of `None` (unreachable, since an
end of `None` forces a falsy start). -/
def pairCheck (rft : List (String × String)) (f1 f2 : String) :
    Except String (List String × List String) :=
  match findSingleDifferenceS f1 f2 with
  | none => .ok ([], [])
  | some (none, _) => .ok ([], [])
  | some (some s, e) =>
    if s > 0 then
      match e with
      | none => .error "TypeError: unsupported operand None"
      | some e =>
        if e - s = 1 then
          let charBefore := f1.data.getD (s - 1) ' '
          if charBefore.isDigit then .ok ([], [])
          else
            let c1 := f1.data.getD s ' '
            let c2 := f2.data.getD s ' '
            let pair : Option (String × String) :=
              if c1 = '1' ∧ c2 = '2' then some (f1, f2)
              else if c2 = '1' ∧ c1 = '2' then some (f2, f1)
              else none
            match pair with
            | none => .ok ([], [])
            | some (p1, p2) =>
              let cand := "candidate paired files: " ++ p1 ++ "  " ++ p2
              let t1 := (alookup rft f1).getD ""
              let t2 := (alookup rft f2).getD ""
              if t1 ≠ t2 then .ok ([], [cand, discordantMsg f1 t1 f2 t2])
              else .ok ([p1 ++ ":" ++ p2], [cand])
        else .ok ([], [])
    else .ok ([], [])

/-- Inner loop of the candidate-pair scan: `filename1` against every later
file. -/
def pairScanOne (rft : List (String × String)) (f1 : String) :
    List String → Except String (List String × List String)
  | [] => .ok ([], [])
  | f2 :: rest => do
    let (ps, probs) ← pairCheck rft f1 f2
    let (ps', probs') ← pairScanOne rft f1 rest
    .ok (ps ++ ps', probs ++ probs')

/-- Outer loop of the candidate-pair scan over all unordered pairs of
`singleFiles` (source lines 597-598). -/
def pairScan (rft : List (String × String)) :
    List String → Except String (List String × List String)
  | [] => .ok ([], [])
  | f1 :: rest => do
    let (ps, probs) ← pairScanOne rft f1 rest
    let (ps', probs') ← pairScan rft rest
    .ok (ps ++ ps', probs ++ probs')

/-- The read-id pairing check over the zipped id samples (source lines
659-670): equal ids pass; otherwise the difference must exist and the
Python 2 expression `sorted(a[d0:d1], b[d0:d1]) != ('1','2')` must be falsy
(see `sortedCmpNeTuple`: it never is, when it does not raise).  Returns the
mismatch problem comment of the first failing pair, if any. -/
def idsCheck (f1 f2 : String) : List (String × String) → Except String (Option String)
  | [] => .ok none
  | (a, b) :: rest =>
    if a == b then idsCheck f1 f2 rest
    else
      let mismatchMsg :=
        "Read IDs do not match for " ++ f1 ++ "(" ++ a ++ ") vs " ++ f2 ++ "(" ++ b ++ ")"
      match findSingleDifferenceS a b with
      | none => .ok (some mismatchMsg)
      | some (d0, d1) => do
        let r ← sortedCmpNeTuple (pySlice a.data d0 d1) (pySlice b.data d0 d1)
        if r then .ok (some mismatchMsg) else idsCheck f1 f2 rest

/-- State of the validation loop: the threaded locals plus the `valid_pairs`,
`valid_singles` and `membersOfPairs` sets. -/
structure ValState where
  st : CatState
  valid_pairs : List String
  valid_singles : List String
  membersOfPairs : List String

/-- Python tuple unpacking `a, b = s.split(d)`: exactly two fields or
`ValueError`. -/
def pyUnpack2 (item : String) (delim : Char) : Except String (String × String) :=
  match pySplitOnChar delim item with
  | [f1, f2] => .ok (f1, f2)
  | _ => .error ("ValueError: unpack " ++ item)

/-- Validation of one candidate pair (source lines 635-677): sample any
not-yet-sampled member, check type concordance and read-id pairing, then
classify into `valid_pairs` or `valid_singles`. -/
def validatePair (fs : FS) (vs : ValState) (item f1 f2 : String) : Except String ValState := do
  let st1 ← if (alookup vs.st.read_file_type f1).isSome then .ok vs.st
            else sampleAndType fs vs.st f1
  let st2 ← if (alookup st1.read_file_type f2).isSome then .ok st1
            else sampleAndType fs st1 f2
  let t1 := (alookup st2.read_file_type f1).getD ""
  let t2 := (alookup st2.read_file_type f2).getD ""
  let typesMatch := t1 == t2
  let st3 := if typesMatch then st2
             else {st2 with problems := st2.problems ++ [discordantMsg f1 t1 f2 t2]}
  let st4 := {st3 with read_file_type := aset st3.read_file_type item t1}
  let ids1 := (alookup st4.read_id_sample f1).getD []
  let ids2 := (alookup st4.read_id_sample f2).getD []
  let mismatch ← idsCheck f1 f2 (ids1.zip ids2)
  match mismatch with
  | some msg =>
    .ok { vs with
      st := {st4 with problems := st4.problems ++ [msg],
                      singleFiles := st4.singleFiles ++ [f1, f2]}
      valid_singles := setAdd (setAdd vs.valid_singles f1) f2 }
  | none =>
    if typesMatch then
      .ok { vs with
        st := st4
        valid_pairs := setAdd vs.valid_pairs item
        membersOfPairs := setAdd (setAdd vs.membersOfPairs f1) f2 }
    else
      .ok { vs with
        st := st4
        valid_singles := setAdd (setAdd vs.valid_singles f1) f2 }

/-- One iteration of the validation loop over `pairedFiles` (source lines
625-677), including the delimiter dispatch. -/
def validateItem (fs : FS) (vs : ValState) (item : String) : Except String ValState :=
  if pyContainsChar item ':' then do
    let (f1, f2) ← pyUnpack2 item ':'
    validatePair fs vs item f1 f2
  else if pyContainsChar item '%' then do
    let (f1, f2) ← pyUnpack2 item '%'
    validatePair fs vs item f1 f2
  else
    .ok { vs with
      st := {vs.st with problems :=
        vs.st.problems ++ ["failed to find : or % in file pair: " ++ item]} }

/-- Result of the pair-finding pass. -/
structure CategorizeResult where
  sraItems : List String
  valid_pairs : List String
  valid_singles : List String
  problems : List String
  preTransforms : List String

/-- `categorize_anonymous_read_files` (source lines 559-687), up to the
final loop that registers every member of `valid_pairs ∪ valid_singles` via
`registerReads` (modelled separately).  SRA-named files are set aside for
the external SRA collaborator. -/
def categorize_anonymous_read_files (fs : FS) (anonymous_reads : List String) :
    Except String CategorizeResult := do
  let sraItems := anonymous_reads.filter (fun i => reMatch reSraAccession false i)
  let nonSra := anonymous_reads.filter (fun i => !reMatch reSraAccession false i)
  let st1 ← nonSra.foldlM (catSampleItem fs) ⟨[], [], [], [], [], []⟩
  let (newPairs, probs) ← pairScan st1.read_file_type st1.singleFiles
  let st2 := {st1 with pairedFiles := st1.pairedFiles ++ newPairs,
                       problems := st1.problems ++ probs}
  let vs ← st2.pairedFiles.foldlM (validateItem fs) ⟨st2, [], [], []⟩
  let finalSingles := vs.st.singleFiles.foldl
    (fun acc item => if item ∈ vs.membersOfPairs then acc else setAdd acc item)
    vs.valid_singles
  .ok ⟨sraItems, vs.valid_pairs, finalSingles, vs.st.problems, vs.st.preTransforms⟩

/-!
## The registry (`details`) and the read-study functions

`details` is the registry dictionary created in `main` (source lines
1856-1863); `details['reads']` maps registered names to per-read-set
dictionaries.  Dictionaries with a fixed key set are modelled as structures
(`ReadStruct`, `Details`); optional keys (`interleaved`, `supercedes`,
`superceded_by`, the studied statistics) are `Option` fields, `none` meaning
the key is absent.  Updating a field of `details['reads'][item]` raises
`KeyError` when `item` is not registered, hence `updateReads` is fallible.
-/

/-- One entry of `details['reads']`.  Fields mirror the keys the source
assigns; the never-stored local qual-score min/max of the study loops have
no counterpart. -/
structure ReadStruct where
  file : List String := []
  problem : List String := []
  layout : String := "na"
  platform : String := "na"
  length_class : String := "na"
  delim : Option String := none
  interleaved : Option Bool := none
  supercedes : Option String := none
  superceded_by : Option String := none
  avg_len : Option Nat := none
  max_read_len : Option Nat := none
  min_read_len : Option Nat := none
  num_reads : Option Nat := none
  sample_read_id : Option String := none
  inferred_platform : Option String := none
  deriving Repr, DecidableEq

/-- The registry dictionary `details` (the fields the modelled functions
touch). -/
structure Details where
  original_items : List String := []
  reads : List (String × ReadStruct) := []
  problem : List String := []
  derived_reads : List String := []
  platform : List (String × List String) := []
  preTransforms : List String := []
  deriving Repr, DecidableEq

/-- `details['reads'][item][...] = ...`: update an existing entry or raise
`KeyError`. -/
def updateReads (d : Details) (item : String) (f : ReadStruct → ReadStruct) :
    Except String Details :=
  match alookup d.reads item with
  | none => .error ("KeyError: " ++ item)
  | some r => .ok {d with reads := aset d.reads item (f r)}

/-- Accumulator of the `studyFastaReads` line loop (source lines 357-374):
current sequence, running totals, and the sample id, which is (re)assigned
at any header line reached with an empty accumulated sequence. -/
structure FastaScanState where
  seq : String := ""
  total : Nat := 0
  maxLen : Nat := 0
  minLen : Nat := 1000000
  readNumber : Nat := 0
  sample : Option String := none

/-- Flush the accumulated sequence into the length statistics (source lines
360-365 and 370-374). -/
def fastaFlush (s : FastaScanState) : FastaScanState :=
  { s with
    total := s.total + s.seq.length
    maxLen := max s.maxLen s.seq.length
    minLen := min s.minLen s.seq.length
    seq := "" }

/-- One line of the `studyFastaReads` loop. -/
def fastaScanLine (s : FastaScanState) (line : String) : FastaScanState :=
  if pyStartsWith line ">" then
    let s := {s with readNumber := s.readNumber + 1}
    if s.seq ≠ "" then fastaFlush s
    else {s with sample := some (pySplitWsHead line)}
  else
    {s with seq := s.seq ++ pyRstrip line}

/-- The flush of the last record after the loop (source lines 370-374). -/
def fastaScanFinish (s : FastaScanState) : FastaScanState :=
  if s.seq ≠ "" then fastaFlush s else s

/-- The whole `studyFastaReads` scan, including the final flush. -/
def fastaScan (content : FileData) : FastaScanState :=
  fastaScanFinish (content.foldl fastaScanLine {})

/-- Specification-side FASTA parse: the per-record sequences (concatenated,
right-stripped non-header lines following each header; lines before the
first header are ignored — every studied file starts with a header). -/
def fastaGoSeqs : List String → Option String → List String
  | [], none => []
  | [], some s => [s]
  | l :: ls, acc =>
    if pyStartsWith l ">" then
      match acc with
      | none => fastaGoSeqs ls (some "")
      | some s => s :: fastaGoSeqs ls (some "")
    else
      match acc with
      | none => fastaGoSeqs ls none
      | some s => fastaGoSeqs ls (some (s ++ pyRstrip l))

/-- Specification-side maximum observed sequence length of a FASTA file. -/
def maxFastaSeqLen (lines : List String) : Nat :=
  (fastaGoSeqs lines none).foldl (fun m q => max m q.length) 0

/-- `studyFastaReads(item, details)` (source lines 344-389).  An input with
no record raises `ZeroDivisionError` at the average; an input whose first
header is never reached with an empty sequence leaves `sample_read_id`
unbound (`NameError`).  Sets `platform` to `"fasta"` and classifies
`length_class` by the 600 bp threshold; finally appends `item` to the
`fasta` platform index if absent (`KeyError` if that index key is missing). -/
def studyFastaReads (fs : FS) (item : String) (d : Details) : Except String Details := do
  match fsLookup fs item with
  | none => .error ("IOError: " ++ item)
  | some content =>
    let s := fastaScan content
    if s.readNumber = 0 then .error "ZeroDivisionError: studyFastaReads"
    else
      match s.sample with
      | none => .error "NameError: sample_read_id"
      | some sid => do
        let d1 ← updateReads d item (fun r =>
          { r with
            avg_len := some (s.total / s.readNumber)
            max_read_len := some s.maxLen
            min_read_len := some s.minLen
            num_reads := some s.readNumber
            sample_read_id := some sid
            platform := "fasta"
            inferred_platform := some (inferPlatform sid (s.maxLen : ℚ))
            length_class := if MAX_SHORT_READ_LENGTH ≤ s.maxLen then "long" else "short" })
        match alookup d1.platform "fasta" with
        | none => .error "KeyError: fasta"
        | some fl =>
          if item ∈ fl then .ok d1
          else .ok {d1 with platform := aset d1.platform "fasta" (fl ++ [item])}

/-- Accumulator of the `studySingleReads` record loop (source lines
288-324).  `prev_read_id` is initialized to `None` at line 297 and never
reassigned anywhere in the loop; the field is carried to mirror the source. -/
structure SingleScanState where
  read_id : String := ""
  sample : String
  seqLen : Nat := 0
  seqQualLenMatch : Bool := true
  total : Nat := 0
  maxLen : Nat := 0
  minLen : Nat := 1000000
  readNumber : Nat := 0
  interleaved : Bool := true
  prev_read_id : Option String := none
  problems : List String := []

/-- One line (with its index `i`) of the `studySingleReads` loop.  The
`i % 8 == 0` checkpoint (source lines 303-307) only runs when
`prev_read_id` is truthy. -/
def singleScanLine (s : SingleScanState) (p : Nat × String) : Except String SingleScanState :=
  let i := p.1
  let line := p.2
  if i % 4 = 0 then do
    let read_id := pySplitHead ' ' line
    let s := {s with read_id := read_id}
    let s := if s.sample = "" then {s with sample := read_id} else s
    if s.interleaved ∧ i % 8 = 0 ∧ (s.prev_read_id.getD "") ≠ "" then
      let prev := s.prev_read_id.getD ""
      if prev ≠ s.sample then
        match findSingleDifferenceS prev s.sample with
        | none => .ok {s with interleaved := false}
        | some (d0, d1) => do
          let r ← sortedCmpNeTuple (pySlice prev.data d0 d1) (pySlice s.sample.data d0 d1)
          if r then .ok {s with interleaved := false} else .ok s
      else .ok s
    else .ok s
  else if i % 4 = 1 then
    .ok {s with seqLen := line.length}
  else if i % 4 = 3 then
    let qualLen := line.length
    let s :=
      if s.seqQualLenMatch ∧ s.seqLen ≠ qualLen then
        { s with
          seqQualLenMatch := false
          problems := s.problems ++
            ["sequence and quality strings differ in length at read " ++
              toString s.readNumber ++ " " ++ s.read_id] }
      else s
    .ok { s with
      total := s.total + s.seqLen
      maxLen := max s.maxLen s.seqLen
      minLen := min s.minLen s.seqLen
      readNumber := s.readNumber + 1 }
  else .ok s

/-- The whole `studySingleReads` record loop. -/
def singleScan (content : FileData) (sample0 : String) : Except String SingleScanState :=
  content.enum.foldlM singleScanLine {sample := sample0}

/-- `studySingleReads(item, details)` (source lines 270-342). -/
def studySingleReads (fs : FS) (item : String) (d : Details) : Except String Details := do
  let d0 ← updateReads d item (fun r => {r with layout := "single-end", num_reads := some 0})
  match fsLookup fs item with
  | none => .error ("IOError: " ++ item)
  | some content =>
    let sample0 := pySplitHead ' ' (content.headD "")
    if pyStartsWith sample0 ">" then studyFastaReads fs item d0
    else do
      let s ← singleScan content sample0
      if s.readNumber = 0 then .ok d0
      else
        updateReads d0 item (fun r =>
          { r with
            problem := r.problem ++ s.problems
            avg_len := some (s.total / s.readNumber)
            max_read_len := some s.maxLen
            min_read_len := some s.minLen
            num_reads := some s.readNumber
            sample_read_id := some s.sample
            inferred_platform := some (inferPlatform s.sample (s.maxLen : ℚ))
            length_class := if MAX_SHORT_READ_LENGTH ≤ s.maxLen then "long" else "short"
            interleaved := if s.interleaved then some true else r.interleaved })

/-- Accumulator of the `studyPairedReads` record loop (source lines
206-248). -/
structure PairedScanState where
  read_ids_paired : Bool := true
  read_id_1 : String := ""
  read_id_2 : String := ""
  sample : String
  seqLen1 : Nat := 0
  seqLen2 : Nat := 0
  seqQualLenMatch : Bool := true
  total : Nat := 0
  maxLen : Nat := 0
  minLen : Nat := 1000000
  readNumber : Nat := 0
  problems : List String := []

/-- One line pair (with index `i`) of the `studyPairedReads` loop; `line2`
is the parallel read of the second file, `""` past its end.  Ids are only
examined while `read_ids_paired` still holds; a differing pair must differ
in a single run whose sorted contents are `('1','2')` — the Python 2
expression for which is `sortedCmpNeTuple`. -/
def pairedScanLine (s : PairedScanState) (p : Nat × String × String) :
    Except String PairedScanState :=
  let i := p.1
  let line1 := p.2.1
  let line2 := p.2.2
  if i % 4 = 0 ∧ s.read_ids_paired then do
    let rid1 := pySplitHead ' ' line1
    let rid2 := pySplitHead ' ' line2
    let s := {s with read_id_1 := rid1, read_id_2 := rid2}
    let s := if s.readNumber = 0 then {s with sample := rid1} else s
    if rid1 ≠ rid2 then
      let mismatch := fun (s : PairedScanState) =>
        { s with
          read_ids_paired := false
          problems := s.problems ++
            ["id_mismatch at read " ++ toString (s.readNumber + 1) ++ ": " ++
              rid1 ++ " vs " ++ rid2] }
      match findSingleDifferenceS rid1 rid2 with
      | none => .ok (mismatch s)
      | some (d0, d1) => do
        let r ← sortedCmpNeTuple (pySlice rid1.data d0 d1) (pySlice rid2.data d0 d1)
        if r then .ok (mismatch s) else .ok s
    else .ok s
  else if i % 4 = 1 then
    .ok {s with seqLen1 := line1.length, seqLen2 := line2.length}
  else if i % 4 = 3 then
    let s :=
      if s.seqQualLenMatch ∧ ¬(s.seqLen1 = line1.length ∧ s.seqLen2 = line2.length) then
        let readId := if s.seqLen1 ≠ line1.length then s.read_id_2 else s.read_id_1
        { s with
          seqQualLenMatch := false
          problems := s.problems ++
            ["sequence and quality strings differ in length at read " ++
              toString s.readNumber ++ " " ++ readId] }
      else s
    .ok { s with
      total := s.total + s.seqLen1 + s.seqLen2
      maxLen := max s.maxLen (max s.seqLen1 s.seqLen2)
      minLen := min s.minLen (min s.seqLen1 s.seqLen2)
      readNumber := s.readNumber + 1 }
  else .ok s

/-- The whole `studyPairedReads` record loop: iterate the lines of the first
file, reading the second in lock-step (`""` once it is exhausted). -/
def pairedScan (content1 content2 : FileData) (sample0 : String) :
    Except String PairedScanState :=
  (content1.enum.map (fun p => (p.1, p.2, content2.getD p.1 ""))).foldlM
    pairedScanLine {sample := sample0}

/-- `studyPairedReads(item, details)` (source lines 175-268).  The item name
is split on `":"` — a `"%"`-joined mate-pair name therefore fails to unpack
(`ValueError`).  A FASTA-looking first file redirects both files to
`studyFastaReads`.  Zero records make the average a `ZeroDivisionError`. -/
def studyPairedReads (fs : FS) (item : String) (d : Details) : Except String Details := do
  let d0 ← updateReads d item (fun r =>
    {r with layout := "paired-end", avg_len := some 0, length_class := "na",
            num_reads := some 0})
  let (f1, f2) ← pyUnpack2 item ':'
  match fsLookup fs f1, fsLookup fs f2 with
  | none, _ => .error ("IOError: " ++ f1)
  | _, none => .error ("IOError: " ++ f2)
  | some content1, some content2 =>
    let sample0 := pySplitHead ' ' (content1.headD "")
    if pyStartsWith sample0 ">" then do
      let d1 ← studyFastaReads fs f1 d0
      studyFastaReads fs f2 d1
    else do
      let s ← pairedScan content1 content2 sample0
      if s.readNumber = 0 then .error "ZeroDivisionError: studyPairedReads"
      else do
        let d1 ← updateReads d0 item (fun r =>
          { r with
            problem := r.problem ++ s.problems
            avg_len := some (s.total / (s.readNumber * 2))
            max_read_len := some s.maxLen
            min_read_len := some s.minLen
            num_reads := some s.readNumber
            sample_read_id := some s.sample
            inferred_platform := some (inferPlatform s.sample (s.maxLen : ℚ))
            length_class := if MAX_SHORT_READ_LENGTH ≤ s.maxLen then "long" else "short" })
        if MAX_SHORT_READ_LENGTH ≤ s.maxLen then
          updateReads d1 item (fun r =>
            {r with problem := r.problem ++
              ["paired reads appear to be long, expected short: " ++ item]})
        else .ok d1

/-!
## `registerReads` (source lines 43-155)
-/

/-- The filesystem environment of a registration call: the flat file map,
the set of names materialized (symlinked or written) into the working
directory, and the working-directory path used by the symlink condition
`os.path.abspath(dir) != WORK_DIR`.  Registration happens before `main`
changes into the working directory, so for plain basenames the condition
holds whenever `workDir` is a nonempty absolute path. -/
structure Env where
  fs : FS
  workdir : List String := []
  workDir : String := "/work"
  deriving Repr, DecidableEq

/-- `os.path.split`: split at the last `/` (no slash: empty directory). -/
def pySplitPath (s : String) : String × String :=
  match (s.data.reverse.span (fun c => c ≠ '/')) with
  | (revBase, []) => ("", String.mk revBase.reverse)
  | (revBase, _ :: revDir) => (String.mk revDir.reverse, String.mk revBase.reverse)

/-- `os.path.exists` in the environment. -/
def envExists (env : Env) (path : String) : Bool :=
  (fsLookup env.fs path).isSome

/-- `bz2.decompress` on whole-file content.  The byte-level codec is outside
the embedding; content is carried through unchanged, which is sound for
every claim since none concerns compressed inputs. -/
def bz2Decompress (content : FileData) : FileData := content

/-- Symlink `path` into the working directory under its basename when its
directory is not already the working directory (source lines 80-85 and
120-122): the basename becomes openable, and the name is materialized. -/
def envSymlink (env : Env) (path : String) : Env :=
  let (dir, base) := pySplitPath path
  if dir ≠ env.workDir then
    { env with
      fs := aset env.fs base ((fsLookup env.fs path).getD [])
      workdir := env.workdir ++ [base] }
  else env

/-- The `.bz2` decompression step for one file of a pair (source lines
86-103): write the decompressed content under the name without the
extension, record the transformation, and use the new name from here on. -/
def bz2Step (env : Env) (d : Details) (file : String) : Env × Details × String :=
  if pyEndsWith file ".bz2" then
    let uncompressed := String.mk (file.data.take (file.data.length - 4))
    ( { env with
        fs := aset env.fs uncompressed (bz2Decompress ((fsLookup env.fs file).getD []))
        workdir := env.workdir ++ [uncompressed] }
    , { d with preTransforms := d.preTransforms ++
        ["decompressing bz2 file " ++ file ++ " to " ++ uncompressed] }
    , uncompressed )
  else (env, d, file)

/-- The file-handling first half of `registerReads` (source lines 63-125):
delimiter dispatch, existence checks, symlinking, `.bz2` decompression, and
the canonical registered name.  `.inl f` reports the first missing file
(the source's reject-with-problem path); `.inr` carries the registered
name, the initial read struct, and the updated registry/environment. -/
def registerPrepare (env : Env) (d : Details) (reads : String) (interleaved : Bool) :
    Except String (Sum String (String × ReadStruct × Details × Env)) :=
  if pyContainsChar reads ':' || pyContainsChar reads '%' then do
    let delim ← if pyContainsChar reads ':' then pure ':' else .error "NameError: delim"
    let (read1, read2) ← pyUnpack2 reads delim
    if ¬ envExists env read1 then
      .ok (.inl read1)
    else if ¬ envExists env read2 then
      .ok (.inl read2)
    else do
      let file1 := (pySplitPath read1).2
      let file2 := (pySplitPath read2).2
      let env := envSymlink (envSymlink env read1) read2
      let (env, d, file1) := bz2Step env d file1
      let (env, d, file2) := bz2Step env d file2
      let registeredName :=
        if pyStrLe file1 file2 then file1 ++ delim.toString ++ file2
        else file2 ++ delim.toString ++ file1
      .ok (.inr (registeredName,
        {file := [file1, file2], delim := some delim.toString}, d, env))
  else
    if ¬ envExists env reads then
      .ok (.inl reads)
    else
      let rs : ReadStruct :=
        if interleaved then {file := [], interleaved := some true} else {file := []}
      let file1 := (pySplitPath reads).2
      let env := envSymlink env reads
      .ok (.inr (file1, {rs with file := [file1]}, d, env))

/-- The first referenced file of a spec that does not exist, in the checking
order of the source (for a `:`-pair, the first member then the second; a
single name checks itself).  `none` when nothing is missing or the spec
never reaches an existence check (a `%`-only pair dies of the unbound
`delim`, a many-`:` spec of the unpacking). -/
def firstMissingFile (env : Env) (reads : String) : Option String :=
  if pyContainsChar reads ':' || pyContainsChar reads '%' then
    if pyContainsChar reads ':' then
      match pySplitOnChar ':' reads with
      | [r1, r2] =>
        if ¬ envExists env r1 then some r1
        else if ¬ envExists env r2 then some r2
        else none
      | _ => none
    else none
  else if ¬ envExists env reads then some reads else none

/-- The registration second half of `registerReads` (source lines 127-155):
supersession or platform-index bookkeeping, the duplicate-registered-name
problem note, the reads-map insertion and the synchronous study of the new
entry. -/
def registerFinish (env : Env) (d : Details) (registeredName : String) (rs : ReadStruct)
    (platform : Option String) (supercedes : Option String) :
    Except String (Option String × Details × Env) := do
  let (rs, d) ←
    match supercedes with
    | some sup => do
      let d := {d with derived_reads := d.derived_reads ++ [registeredName]}
      let rs := {rs with supercedes := some sup}
      match alookup d.reads sup with
      | none => .ok (rs, d)
      | some supStruct => do
        let d ← updateReads d sup (fun r => {r with superceded_by := some registeredName})
        let plat := supStruct.platform
        let rs := {rs with platform := plat}
        match alookup d.platform plat with
        | none => .error ("KeyError: " ++ plat)
        | some lst =>
          match lst.indexOf? sup with
          | none => .ok (rs, d)   -- ValueError caught; its comment is dropped
          | some idx => .ok (rs, {d with platform := aset d.platform plat (lst.set idx registeredName)})
    | none =>
      match platform with
      | some p =>
        let lst := (alookup d.platform p).getD []
        .ok ({rs with platform := p}, {d with platform := aset d.platform p (lst ++ [registeredName])})
      | none => .ok (rs, d)
  let d :=
    if (alookup d.reads registeredName).isSome then
      {d with problem := d.problem ++
        ["registered name " ++ registeredName ++ " already in details[reads]"]}
    else d
  let d := {d with reads := aset d.reads registeredName rs}
  let d ←
    if rs.file.length = 2 then studyPairedReads env.fs registeredName d
    else studySingleReads env.fs registeredName d
  .ok (some registeredName, d, env)

/-- `registerReads(reads, details, platform, interleaved, supercedes)`
(source lines 43-155).  Returns the registered name (`none` models the
Python `return None` rejections), the updated registry, and the updated
environment.

Quirks kept from the source: the spec is appended to `original_items`
*before* the existence checks; a `%`-only pair spec leaves `delim` unbound
(`NameError`); a superseded entry whose platform is missing from the
platform index raises `KeyError` (only `ValueError` from `.index` is
caught, and its handler drops its comment). -/
def registerReads (env : Env) (d : Details) (reads : String) (platform : Option String)
    (interleaved : Bool) (supercedes : Option String) :
    Except String (Option String × Details × Env) := do
  if reads ∈ d.original_items then
    .ok (none, {d with problem := d.problem ++ ["duplicate registration of reads " ++ reads]},
      env)
  else do
    let d := {d with original_items := d.original_items ++ [reads]}
    match ← registerPrepare env d reads interleaved with
    | .inl missing =>
      .ok (none, {d with problem := d.problem ++ ["file does not exist: " ++ missing]}, env)
    | .inr (registeredName, rs, d, env) =>
      registerFinish env d registeredName rs platform supercedes

/-!
## Orchestrator read-set selection

The read sets each stage draws from `details['reads']` (iterated in
insertion order; Python 2 dict order is abstracted to the list order of the
model, which claims do not depend on).
-/

/-- The four read-file slots `runUnicycler` fills (source lines 1146-1161). -/
structure UnicyclerSel where
  short1 : Option String := none
  short2 : Option String := none
  unpaired : Option String := none
  long_reads : Option String := none
  deriving Repr, DecidableEq

/-- One item of the `runUnicycler` scan: entries with `superceded_by` are
skipped; short paired entries fill `short1`/`short2`, short singles
`unpaired`, everything else `long_reads` (indexing an empty file list would
raise `IndexError`). -/
def unicyclerScanItem (sel : UnicyclerSel) (p : String × ReadStruct) :
    Except String UnicyclerSel :=
  if p.2.superceded_by.isSome then .ok sel
  else if p.2.length_class = "short" then
    if p.2.file.length > 1 then
      match p.2.file with
      | f1 :: f2 :: _ => .ok {sel with short1 := some f1, short2 := some f2}
      | _ => .error "IndexError: files"
    else
      match p.2.file with
      | f :: _ => .ok {sel with unpaired := some f}
      | [] => .error "IndexError: files"
  else
    match p.2.file with
    | f :: _ => .ok {sel with long_reads := some f}
    | [] => .error "IndexError: files"

/-- The `runUnicycler` read-selection scan over `details['reads']`. -/
def unicyclerScan (reads : List (String × ReadStruct)) : Except String UnicyclerSel :=
  reads.foldlM unicyclerScanItem {}

/-- The items `runCanu` submits as `-pacbio-raw` (source lines 1596-1606):
every entry whose platform is `pacbio` or `fasta` — supersession is not
consulted. -/
def canuPacbioReads (reads : List (String × ReadStruct)) : List String :=
  (reads.filter (fun p => p.2.platform == "pacbio" || p.2.platform == "fasta")).map Prod.fst

/-- The items `runCanu` submits as `-nanopore-raw` (source lines 1607-1613). -/
def canuNanoporeReads (reads : List (String × ReadStruct)) : List String :=
  (reads.filter (fun p => p.2.platform == "nanopore")).map Prod.fst

/-- The read sets the racon polishing loop iterates (source lines
1926-1927): every entry of class `long` — supersession is not consulted. -/
def raconCandidates (reads : List (String × ReadStruct)) : List String :=
  (reads.filter (fun p => p.2.length_class == "long")).map Prod.fst

/-- The read sets the pilon polishing loop iterates (source lines
1938-1941): entries of class `short` whose `superceded_by` key is absent. -/
def pilonCandidates (reads : List (String × ReadStruct)) : List String :=
  (reads.filter (fun p => p.2.superceded_by.isNone && p.2.length_class == "short")).map
    Prod.fst

/-- The recipe-selection step of `main` (source lines 1901-1914): under
`auto`, choose `unicycler` exactly when the `illumina` and `iontorrent`
platform-index lists are not both empty, else `canu`; any other recipe
string passes through unchanged.  (The two index keys are created in
`main`.) -/
def chooseRecipe (recipe : String) (d : Details) : String :=
  if recipe = "auto" then
    if ((alookup d.platform "illumina").getD [] ++ (alookup d.platform "iontorrent").getD [])
        ≠ [] then "unicycler"
    else "canu"
  else recipe

/-!
## `calcReadDepth` (source lines 1503-1573)

Input: the `samtools depth -a` lines, each a contig name with its per-file
depth columns (`fields[2:]`, summed per line; lines with fewer than three
fields would raise in the source and are excluded by the input type).
`samtools depth` emits integer depths, so the columns are `Int` and the
float arithmetic on them is modelled over `ℚ` (`0.5` and `1.5` are exactly
representable, and integer sums stay exact).
-/

/-- The grouping stage's accumulator: the per-contig mean-depth and length
dictionaries, the running per-contig and global sums, and the previous
contig name. -/
structure DepthGroupState where
  readDepth : List (String × ℚ) := []
  contigLength : List (String × Nat) := []
  depthSum : Int := 0
  len : Nat := 0
  prevContig : Option String := none
  totalLength : Nat := 0
  totalDepthSum : Int := 0
  deriving Repr, DecidableEq

/-- Flush the running sums of the previous contig into the dictionaries
(source lines 1530-1536 and 1543-1546). -/
def depthFlush (s : DepthGroupState) : DepthGroupState :=
  match s.prevContig with
  | none => s
  | some pc =>
    { s with
      readDepth := aset s.readDepth pc (mkRat s.depthSum s.len)
      contigLength := aset s.contigLength pc s.len
      depthSum := 0
      len := 0 }

/-- One depth line (source lines 1522-1541). -/
def depthGroupLine (s : DepthGroupState) (p : String × List Int) : DepthGroupState :=
  let depth := p.2.foldl (· + ·) 0
  let s := if some p.1 ≠ s.prevContig then {depthFlush s with prevContig := some p.1} else s
  { s with
    totalLength := s.totalLength + 1
    len := s.len + 1
    depthSum := s.depthSum + depth
    totalDepthSum := s.totalDepthSum + depth }

/-- The grouping stage of `calcReadDepth`, final flush included. -/
def calcReadDepthGroups (lines : List (String × List Int)) : DepthGroupState :=
  depthFlush (lines.foldl depthGroupLine {})

/-- `totalMeanDepth` (source lines 1551-1553): overall per-base mean depth,
`0` when there is no depth data. -/
def totalMeanDepthOf (g : DepthGroupState) : ℚ :=
  if 0 < g.totalLength then mkRat g.totalDepthSum g.totalLength else 0

/-- The length-weighted one-fold-coverage accumulation over the contigs
whose mean depth lies within the given bounds (source lines 1558-1564). -/
def oneXFold (g : DepthGroupState) (lowerBound upperBound : ℚ) : ℚ × Nat :=
  g.readDepth.foldl
    (fun (acc : ℚ × Nat) cm =>
      if lowerBound ≤ cm.2 ∧ cm.2 ≤ upperBound then
        let l := (alookup g.contigLength cm.1).getD 0
        (acc.1 + cm.2 * (l : ℚ), acc.2 + l)
      else acc)
    (0, 0)

/-- `calcReadDepth(bamfiles)` on the depth lines: per-contig
`(meanDepth, normalizedDepth)`.  The normalization baseline is the
length-weighted mean of the contigs whose mean depth lies within
`[0.5, 1.5] ×` the overall per-base mean, defaulting to `1` when that set is
empty (or sums to zero). -/
def calcReadDepth (lines : List (String × List Int)) : List (String × ℚ × ℚ) :=
  let g := calcReadDepthGroups lines
  let totalMeanDepth := totalMeanDepthOf g
  let lowerBound := totalMeanDepth * (1 / 2)
  let upperBound := totalMeanDepth * (3 / 2)
  let oneX := oneXFold g lowerBound upperBound
  let oneXDepth : ℚ := if 0 < oneX.2 ∧ 0 < oneX.1 then oneX.1 / (oneX.2 : ℚ) else 1
  g.readDepth.map (fun cm => (cm.1, cm.2, cm.2 / oneXDepth))

/-!
## `filterContigsByMinLength` (source lines 1008-1113)

The decision loop over the parsed contig records `(seqId, seq)` of the input
FASTA (the source's line loop flushes one such record per header, keyed by
the preceding header's id).  `shortReadDepth`/`longReadDepth` are the
`calcReadDepth` results (`[]` models both Python `None` and an empty dict,
which are equally falsy).
-/

/-- `contigCoverage` for one record (source lines 1070-1078): `0`, replaced
by the short-read mean depth when present, then by the long-read mean depth
if larger, each only consulted when the corresponding depth dict is truthy. -/
def contigCoverageOf (shortReadDepth longReadDepth : List (String × ℚ × ℚ))
    (seqId : String) : ℚ :=
  let c : ℚ := 0
  let c := if ¬shortReadDepth.isEmpty then
             match alookup shortReadDepth seqId with
             | some md => md.1
             | none => c
           else c
  if ¬longReadDepth.isEmpty then
    match alookup longReadDepth seqId with
    | some md => max md.1 c
    | none => c
  else c

/-- The keep test of source line 1082: length at or above the minimum, and
either no coverage information was computed at all, or the contig coverage
meets the minimum. -/
def contigKeep (shortReadDepth longReadDepth : List (String × ℚ × ℚ))
    (min_contig_length : Nat) (min_contig_coverage : ℚ) (rec : String × String) : Bool :=
  decide (min_contig_length ≤ rec.2.length) &&
    ((shortReadDepth.isEmpty && longReadDepth.isEmpty) ||
      decide (min_contig_coverage ≤ contigCoverageOf shortReadDepth longReadDepth rec.1))

/-- One record of the filtering loop: kept records are written to the output
contigs file, failing ones are accumulated for the below-threshold archive
file. -/
def contigStep (shortReadDepth longReadDepth : List (String × ℚ × ℚ))
    (min_contig_length : Nat) (min_contig_coverage : ℚ)
    (acc : List (String × String) × List (String × String)) (rec : String × String) :
    List (String × String) × List (String × String) :=
  if contigKeep shortReadDepth longReadDepth min_contig_length min_contig_coverage rec
  then (acc.1 ++ [rec], acc.2)
  else (acc.1, acc.2 ++ [rec])

/-- The filtering loop over all contig records. -/
def filterContigsByMinLength (records : List (String × String))
    (shortReadDepth longReadDepth : List (String × ℚ × ℚ))
    (min_contig_length : Nat) (min_contig_coverage : ℚ) :
    List (String × String) × List (String × String) :=
  records.foldl
    (contigStep shortReadDepth longReadDepth min_contig_length min_contig_coverage)
    ([], [])

/-!
## Concrete inputs used by witnesses and counterexamples
-/

/-- The fresh registry as initialized in `main` (source lines 1856-1863). -/
def mainInitDetails : Details :=
  { platform := [("illumina", []), ("iontorrent", []), ("pacbio", []), ("nanopore", []),
                 ("fasta", []), ("anonymous", [])] }

/-- Two anonymous FASTQ files whose names differ only in the `1`/`2` digit
(preceded by the non-digit `_`) and whose read ids differ only in the
`1`/`2` digit at the same index. -/
def c1FS : FS :=
  [("sample_1.fastq", ["@r0/1", "ACGT", "+", "IIII"]),
   ("sample_2.fastq", ["@r0/2", "ACGT", "+", "IIII"])]

/-- A FASTQ file of three records with pairwise unrelated ids: all distinct,
of pairwise different lengths, so no two are related by any single-character
difference, let alone a `1`/`2` digit swap. -/
def c2FS : FS :=
  [("f.fastq",
    ["@a", "ACGT", "+", "IIII",
     "@bb", "ACG", "+", "III",
     "@ccc", "AC", "+", "II"])]

/-- A registry with a single-entry reads map for `f.fastq`. -/
def c2Details : Details :=
  {mainInitDetails with reads := [("f.fastq", {})]}

/-- A FASTA file with a single 4-base sequence (far below the 600 bp
short/long threshold). -/
def c7FS : FS :=
  [("c.fasta", [">c1", "ACGT"])]

/-- A registry with a single entry for `c.fasta`. -/
def c7Details : Details :=
  {mainInitDetails with reads := [("c.fasta", {})]}

/-- A registry whose `pacbio`, long-class read set `old.fastq` has been
superseded by `new.fastq`. -/
def c5Reads : List (String × ReadStruct) :=
  [("old.fastq",
    { file := ["old.fastq"], platform := "pacbio", length_class := "long",
      superceded_by := some "new.fastq" }),
   ("new.fastq",
    { file := ["new.fastq"], platform := "pacbio", length_class := "long",
      supercedes := some "old.fastq" })]

/-- A registry with one illumina pair registered in the platform index. -/
def c9Details : Details :=
  { mainInitDetails with
    platform := [("illumina", ["a_1.fastq:a_2.fastq"]), ("iontorrent", []), ("pacbio", []),
                 ("nanopore", []), ("fasta", []), ("anonymous", [])] }

/-- The predicate picking the read sets not yet superseded. -/
def liveEntry (p : String × ReadStruct) : Bool :=
  p.2.superceded_by.isNone

/-- Equality of the registration-relevant registry shape: the
`original_items` ledger, the registry-level problem list and the key list of
the reads map.  The study functions preserve it. -/
def sameRegistryShape (d d' : Details) : Prop :=
  d'.original_items = d.original_items ∧ d'.problem = d.problem ∧
    d'.reads.map Prod.fst = d.reads.map Prod.fst

/-- An environment holding one short FASTQ file `a.fastq`. -/
def c8Env : Env :=
  { fs := [("a.fastq", ["@r1", "ACGT", "+", "IIII"])] }

/-!
## Theorems
-/

/-- Every pair produced by zipping a list with itself has equal components. -/
theorem zip_self_eq (l : List Char) : ∀ p ∈ l.zip l, p.1 = p.2 := by
  induction l with
  | nil => intro p hp; cases hp
  | cons x xs ih =>
    intro p hp
    rcases List.mem_cons.mp hp with h | h
    · rw [h]
    · exact ih p h

/-- On all-equal pairs with a truthy `end` register, the loop leaves both
registers unchanged. -/
theorem fsdGo_all_eq_truthy_e (ps : List (Char × Char)) (start e : Option Nat)
    (h : ∀ p ∈ ps, p.1 = p.2) (he : optNatTruthy e = true) :
    ∀ j, fsdGo ps j start e = some (start, e) := by
  induction ps with
  | nil => intro j; rfl
  | cons p rest ih =>
    intro j
    obtain ⟨c1, c2⟩ := p
    have hc : c1 = c2 := h (c1, c2) (List.mem_cons_self _ _)
    simp only [fsdGo, hc, bne_self_eq_false, Bool.false_eq_true, if_false, he,
      Bool.not_true, Bool.and_false, if_false]
    exact ih (fun p hp => h p (List.mem_cons_of_mem _ hp)) (j + 1)

/-- On all-equal pairs with a falsy `start` register and `end = None`, the
loop leaves both registers unchanged. -/
theorem fsdGo_all_eq_falsy_start (ps : List (Char × Char)) (start : Option Nat)
    (h : ∀ p ∈ ps, p.1 = p.2) (hs : optNatTruthy start = false) :
    ∀ j, fsdGo ps j start none = some (start, none) := by
  induction ps with
  | nil => intro j; rfl
  | cons p rest ih =>
    intro j
    obtain ⟨c1, c2⟩ := p
    have hc : c1 = c2 := h (c1, c2) (List.mem_cons_self _ _)
    simp only [fsdGo, hc, bne_self_eq_false, Bool.false_eq_true, if_false, hs,
      Bool.false_and, if_false]
    exact ih (fun p hp => h p (List.mem_cons_of_mem _ hp)) (j + 1)

/-- On a nonempty run of all-equal pairs, with a truthy `start` register and
`end = None`, the loop sets `end` to the index of the first of those pairs. -/
theorem fsdGo_all_eq_after_cons (p : Char × Char) (rest : List (Char × Char))
    (k j : Nat) (hk : k ≠ 0) (hj : j ≠ 0) (h : ∀ q ∈ p :: rest, q.1 = q.2) :
    fsdGo (p :: rest) j (some k) none = some (some k, some j) := by
  obtain ⟨c1, c2⟩ := p
  have hc : c1 = c2 := h (c1, c2) (List.mem_cons_self _ _)
  have htr : optNatTruthy (some k) = true := by
    simp [optNatTruthy, hk]
  have hcond : (optNatTruthy (some k) && !optNatTruthy none) = true := by
    rw [htr]; rfl
  simp only [fsdGo, hc, bne_self_eq_false, Bool.false_eq_true, if_false, hcond, if_true]
  exact fsdGo_all_eq_truthy_e rest (some k) (some j)
    (fun q hq => h q (List.mem_cons_of_mem _ hq)) (by simp [optNatTruthy, hj]) (j + 1)

/-- The loop walks through an all-equal self-zipped prefix without touching
the `start`/`end` registers, advancing the index by the prefix length. -/
theorem fsdGo_self_prefix (a : List Char) :
    ∀ (rest : List (Char × Char)) (j : Nat),
      fsdGo (a.zip a ++ rest) j none none = fsdGo rest (j + a.length) none none := by
  induction a with
  | nil => intro rest j; simp
  | cons x xs ih =>
    intro rest j
    have h1 : fsdGo ((x, x) :: (xs.zip xs ++ rest)) j none none
        = fsdGo (xs.zip xs ++ rest) (j + 1) none none := by
      simp [fsdGo, optNatTruthy]
    rw [List.zip_cons_cons, List.cons_append, h1, ih]
    congr 1
    rw [List.length_cons]
    omega

/-- C3 (amended): for two equal-length strings that agree except at one index
`i` — written as a shared prefix `a` (so `i = a.length`), differing characters
`c ≠ d`, and a shared suffix `b` — `findSingleDifference` returns the
half-open range `(i, i+1)` whenever `i ≥ 1`; when the single difference is at
index `0` it instead returns `(0, None)`, because Python's `if not start:`
treats the recorded start index `0` as falsy. -/
theorem findSingleDifference_single_diff (a b : List Char) (c d : Char) (hcd : c ≠ d) :
    findSingleDifference (a ++ c :: b) (a ++ d :: b) =
      if a.length = 0 then some (some 0, none)
      else some (some a.length, some (a.length + 1)) := by
  have hzip : (a ++ c :: b).zip (a ++ d :: b) = a.zip a ++ (c, d) :: b.zip b := by
    rw [List.zip_append rfl, List.zip_cons_cons]
  have hbne : (c != d) = true := bne_iff_ne.mpr hcd
  have hstep : fsdGo ((c, d) :: b.zip b) a.length none none =
      fsdGo (b.zip b) (a.length + 1) (some a.length) none := by
    simp [fsdGo, hbne, optNatTruthy]
  have hlen : ¬ (a ++ c :: b).length ≠ (a ++ d :: b).length := by simp
  rw [findSingleDifference, if_neg hlen, hzip, fsdGo_self_prefix, Nat.zero_add, hstep]
  rcases Nat.eq_zero_or_pos a.length with h0 | hpos
  · rw [h0]
    rw [fsdGo_all_eq_falsy_start (b.zip b) (some 0) (zip_self_eq b) (by simp [optNatTruthy])]
    simp [optNatTruthy]
  · have hk : a.length ≠ 0 := Nat.pos_iff_ne_zero.mp hpos
    cases hb : b with
    | nil =>
      simp [fsdGo, optNatTruthy, hk]
    | cons x bs =>
      rw [List.zip_cons_cons,
        fsdGo_all_eq_after_cons _ _ a.length (a.length + 1) hk (by omega)
          (by rw [← List.zip_cons_cons]; exact zip_self_eq (x :: bs))]
      simp [optNatTruthy, hk]

/-- C3 witness: `findSingleDifference "x1y" "x2y"` (single difference at
index `1`) returns `(1, 2)`. -/
theorem findSingleDifference_single_diff_witness :
    findSingleDifference ['x', '1', 'y'] ['x', '2', 'y'] = some (some 1, some 2) := by
  have h := findSingleDifference_single_diff ['x'] ['y'] '1' '2' (by decide)
  simpa using h

/-- C3 counterexample: `"1a"` and `"2a"` are equal-length strings differing at
exactly index `0`, so the claim demands the range `(0, 1)`; the code instead
returns `(0, None)`. -/
theorem findSingleDifference_counterexample :
    findSingleDifference ['1', 'a'] ['2', 'a'] = some (some 0, none) ∧
    findSingleDifference ['1', 'a'] ['2', 'a'] ≠ some (some 0, some 1) := by
  constructor <;> decide

/-- C1: `sample_1.fastq` and `sample_2.fastq` satisfy every premise of the
claim — equal-length names differing exactly at index 7 with `'1'` vs `'2'`
and a non-digit before it, agreeing sampled platforms, and sampled read ids
that differ only in the `1`/`2` digit at the same index — yet the
pair-finding pass produces *zero* valid pairs and registers both files as
singles: the revalidation step evaluates the Python 2 expression
`sorted(idpair[0][d0:d1], idpair[1][d0:d1]) != ('1', '2')`, which is `True`
whenever the ids differ at all, so a digit-swapped id pair can never pass. -/
theorem categorize_digit_swap_pair_rejected :
    (findSingleDifferenceS "sample_1.fastq" "sample_2.fastq" = some (some 7, some 8) ∧
      "sample_1.fastq".data.getD 7 ' ' = '1' ∧
      "sample_2.fastq".data.getD 7 ' ' = '2' ∧
      ("sample_1.fastq".data.getD 6 ' ').isDigit = false ∧
      inferPlatform "@r0/1" (mkRat 3 1) = inferPlatform "@r0/2" (mkRat 3 1) ∧
      findSingleDifferenceS "@r0/1" "@r0/2" = some (some 4, some 5) ∧
      "@r0/1".data.getD 4 ' ' = '1' ∧ "@r0/2".data.getD 4 ' ' = '2') ∧
    (categorize_anonymous_read_files c1FS ["sample_1.fastq", "sample_2.fastq"]).map
        (fun r => (r.valid_pairs, r.valid_singles)) =
      .ok ([], ["sample_1.fastq", "sample_2.fastq"]) :=
  ⟨by decide, by rfl⟩

/-- C2: on a single-end FASTQ file whose three read ids are pairwise
unrelated — all distinct and of pairwise different lengths, so no two are
related by a single `1`/`2` digit swap and every interleave checkpoint must
fail — `studySingleReads` nevertheless sets `interleaved = True`: the loop
initializes `prev_read_id = None` and never assigns it, so the checkpoint
comparison guarded by `prev_read_id` never executes and the `interleaved`
flag keeps its initial `True`. -/
theorem studySingleReads_marks_unrelated_ids_interleaved :
    (["@a", "@bb", "@ccc"].Pairwise
      (fun a b => a ≠ b ∧ findSingleDifferenceS a b = none)) ∧
    (studySingleReads c2FS "f.fastq" c2Details).map
        (fun d => (alookup d.reads "f.fastq").map (fun r => r.interleaved)) =
      .ok (some (some true)) :=
  ⟨by decide, by rfl⟩

/-- `aset` then `alookup` at the same key yields the stored value. -/
theorem alookup_aset_self {α : Type} (l : List (String × α)) (k : String) (v : α) :
    alookup (aset l k v) k = some v := by
  induction l with
  | nil => simp [aset, alookup, List.find?]
  | cons p rest ih =>
    obtain ⟨k', v'⟩ := p
    by_cases h : k' = k
    · simp [aset, h, alookup, List.find?]
    · have hb : (k' == k) = false := by simp [h]
      simp only [aset, hb, Bool.false_eq_true, if_false]
      simp only [alookup, List.find?, hb]
      exact ih

/-- The accumulated `maxReadLength` of the `studyFastaReads` scan equals the
running maximum of the record sequences parsed from the current
accumulator. -/
theorem fastaScan_maxLen_go (lines : List String) :
    ∀ (s : FastaScanState),
      (fastaScanFinish (lines.foldl fastaScanLine s)).maxLen =
        (fastaGoSeqs lines (some s.seq)).foldl (fun m q => max m q.length) s.maxLen := by
  induction lines with
  | nil =>
    intro s
    by_cases h : s.seq = ""
    · simp [fastaScanFinish, fastaGoSeqs, h, fastaFlush]
    · simp [fastaScanFinish, fastaGoSeqs, h, fastaFlush]
  | cons l ls ih =>
    intro s
    by_cases hl : pyStartsWith l ">" = true
    · by_cases h : s.seq = ""
      · have h1 : List.foldl fastaScanLine s (l :: ls) =
            List.foldl fastaScanLine
              {(({s with readNumber := s.readNumber + 1}) : FastaScanState) with
                sample := some (pySplitWsHead l)} ls := by
          simp [List.foldl, fastaScanLine, hl, h]
        rw [h1, ih]
        simp [fastaGoSeqs, hl, h]
      · have h1 : List.foldl fastaScanLine s (l :: ls) =
            List.foldl fastaScanLine (fastaFlush {s with readNumber := s.readNumber + 1}) ls := by
          simp [List.foldl, fastaScanLine, hl, h]
        rw [h1, ih]
        simp [fastaGoSeqs, hl, fastaFlush, h]
    · have h1 : List.foldl fastaScanLine s (l :: ls) =
          List.foldl fastaScanLine {s with seq := s.seq ++ pyRstrip l} ls := by
        simp [List.foldl, fastaScanLine, hl]
      rw [h1, ih]
      simp [fastaGoSeqs, hl]

/-- `Except` bind on a success, as produced by `do` notation. -/
theorem except_bind_ok {e a b : Type} (x : a) (f : a → Except e b) :
    (Except.ok x >>= f) = f x := rfl

/-- `Except` bind on an error, as produced by `do` notation. -/
theorem except_bind_error {e a b : Type} (err : e) (f : a → Except e b) :
    ((Except.error err : Except e a) >>= f) = Except.error err := rfl

/-- `pure` into `Except` is `Except.ok`. -/
theorem except_pure {e a : Type} (x : a) : (pure x : Except e a) = Except.ok x := rfl

/-- C7 (amended): a FASTA input studied by `studyFastaReads` is assigned
`length_class = "long"` exactly when its maximum observed sequence length
reaches the 600 bp short/long threshold — the same rule as for FASTQ inputs,
not unconditionally `"long"` — and its `platform` is set to `"fasta"`. -/
theorem studyFastaReads_length_class (fs : FS) (item : String) (d d' : Details)
    (content : FileData) (r : ReadStruct)
    (hc : fsLookup fs item = some content)
    (hh : pyStartsWith (content.headD "") ">" = true)
    (hres : studyFastaReads fs item d = .ok d')
    (hr : alookup d'.reads item = some r) :
    (r.length_class = "long" ↔ MAX_SHORT_READ_LENGTH ≤ maxFastaSeqLen content) ∧
    r.platform = "fasta" := by
  have hmax : (fastaScan content).maxLen = maxFastaSeqLen content := by
    cases content with
    | nil => simp [pyStartsWith] at hh
    | cons h t =>
      have hh' : pyStartsWith h ">" = true := hh
      have e1 : fastaGoSeqs (h :: t) none = fastaGoSeqs t (some "") := by
        simp [fastaGoSeqs, hh']
      have e2 : fastaGoSeqs (h :: t) (some "") = "" :: fastaGoSeqs t (some "") := by
        simp [fastaGoSeqs, hh']
      have e3 := fastaScan_maxLen_go (h :: t) ({} : FastaScanState)
      rw [maxFastaSeqLen, e1]
      rw [fastaScan, e3, e2]
      simp
  unfold studyFastaReads at hres
  rw [hc] at hres
  simp only [] at hres
  split at hres
  · exact absurd hres (by simp)
  · split at hres
    · exact absurd hres (by simp)
    · rename_i sid hsid
      unfold updateReads at hres
      split at hres
      · rw [except_bind_error] at hres
        exact absurd hres (by simp)
      · rename_i r0 hl
        rw [except_bind_ok] at hres
        simp only [] at hres
        split at hres
        · exact absurd hres (by simp)
        · rename_i fl hfl
          have hreads : d'.reads = aset d.reads item
              { r0 with
                avg_len := some ((fastaScan content).total / (fastaScan content).readNumber)
                max_read_len := some (fastaScan content).maxLen
                min_read_len := some (fastaScan content).minLen
                num_reads := some (fastaScan content).readNumber
                sample_read_id := some sid
                platform := "fasta"
                inferred_platform := some (inferPlatform sid ((fastaScan content).maxLen : ℚ))
                length_class :=
                  if MAX_SHORT_READ_LENGTH ≤ (fastaScan content).maxLen then "long"
                  else "short" } := by
            split at hres
            · cases hres
              rfl
            · cases hres
              rfl
          rw [hreads, alookup_aset_self] at hr
          injection hr with hr
          subst hr
          refine ⟨?_, rfl⟩
          rw [← hmax]
          by_cases hle : MAX_SHORT_READ_LENGTH ≤ (fastaScan content).maxLen
          · simp [hle]
          · simp [hle]

/-- C7 witness: on a FASTA file whose only sequence has 4 bases,
`studyFastaReads` does not assign `length_class = "long"`. -/
theorem studyFastaReads_length_class_witness :
    ∃ d' r, studyFastaReads c7FS "c.fasta" c7Details = .ok d' ∧
      alookup d'.reads "c.fasta" = some r ∧ r.length_class ≠ "long" := by
  refine ⟨_, _, rfl, rfl, fun h => ?_⟩
  have := (studyFastaReads_length_class c7FS "c.fasta" c7Details _ [">c1", "ACGT"] _
    (by rfl) (by decide) (by rfl) (by rfl)).1.mp h
  revert this
  decide

/-- C7 counterexample: the claim says every FASTA input gets
`length_class = "long"` regardless of length; a 4-base FASTA record is
classified `"short"`. -/
theorem studyFastaReads_counterexample :
    (studyFastaReads c7FS "c.fasta" c7Details).map
        (fun d => (alookup d.reads "c.fasta").map (fun r => r.length_class)) =
      .ok (some "short") ∧ ("short" : String) ≠ "long" :=
  ⟨by rfl, by decide⟩

/-- The `runUnicycler` scan loop skips superseded entries: from any partial
selection it computes the same result as over the live entries only. -/
theorem unicyclerScan_go_ignores_superseded (reads : List (String × ReadStruct)) :
    ∀ sel, List.foldlM unicyclerScanItem sel reads =
      List.foldlM unicyclerScanItem sel (reads.filter liveEntry) := by
  induction reads with
  | nil => intro sel; rfl
  | cons p rest ih =>
    intro sel
    by_cases hp : liveEntry p = true
    · rw [List.filter_cons_of_pos hp]
      show (unicyclerScanItem sel p >>= fun s => List.foldlM unicyclerScanItem s rest) =
        (unicyclerScanItem sel p >>= fun s =>
          List.foldlM unicyclerScanItem s (rest.filter liveEntry))
      cases h : unicyclerScanItem sel p with
      | error e => rfl
      | ok s => rw [except_bind_ok, except_bind_ok]; exact ih s
    · rw [List.filter_cons_of_neg (by simpa using hp)]
      have hsome : p.2.superceded_by.isSome = true := by
        cases hsb : p.2.superceded_by with
        | none => exact absurd (by simp [liveEntry, hsb]) hp
        | some _ => rfl
      have hstep : unicyclerScanItem sel p = .ok sel := by
        simp [unicyclerScanItem, hsome]
      show (unicyclerScanItem sel p >>= fun s => List.foldlM unicyclerScanItem s rest) =
        List.foldlM unicyclerScanItem sel (rest.filter liveEntry)
      rw [hstep, except_bind_ok]
      exact ih sel

/-- C5 (amended): `runUnicycler`'s read selection and the pilon loop never
draw on a superseded read set — both compute the same selection over the
registry restricted to entries without `superceded_by` — but `runCanu`'s
long-read selection and the racon loop do not consult supersession: in the
registry `c5Reads`, the superseded `old.fastq` is still submitted to canu
and still polished with racon. -/
theorem orchestrator_superseded_selection :
    (∀ reads : List (String × ReadStruct),
      unicyclerScan reads = unicyclerScan (reads.filter liveEntry)) ∧
    (∀ reads : List (String × ReadStruct),
      pilonCandidates reads = pilonCandidates (reads.filter liveEntry)) ∧
    ((alookup c5Reads "old.fastq").map (fun r => r.superceded_by) =
        some (some "new.fastq") ∧
      "old.fastq" ∈ canuPacbioReads c5Reads ∧
      "old.fastq" ∈ raconCandidates c5Reads) := by
  refine ⟨?_, ?_, by decide⟩
  · intro reads
    exact unicyclerScan_go_ignores_superseded reads {}
  · intro reads
    rw [pilonCandidates, pilonCandidates, List.filter_filter]
    congr 1
    apply List.filter_congr
    intro p _
    cases hsb : p.2.superceded_by <;> simp [liveEntry, hsb]

/-- C5 counterexample: the claim says a read set with `superceded_by` set is
never selected for assembly or polishing; the superseded `old.fastq` is
selected both by `runCanu`'s `-pacbio-raw` collection and by the racon
polishing loop. -/
theorem superseded_still_selected_counterexample :
    (alookup c5Reads "old.fastq").map (fun r => r.superceded_by) =
        some (some "new.fastq") ∧
    "old.fastq" ∈ canuPacbioReads c5Reads ∧
    "old.fastq" ∈ raconCandidates c5Reads := by
  decide

/-- C9: under `recipe = "auto"`, `main` selects `unicycler` exactly when the
`illumina` and `iontorrent` platform-index lists are not both empty (i.e.
some read set is registered under one of those platforms), and `canu`
otherwise; an explicitly given recipe is passed through unchanged. -/
theorem chooseRecipe_auto_rule (d : Details) (recipe : String) :
    (chooseRecipe "auto" d = "unicycler" ↔
      ((alookup d.platform "illumina").getD [] ++
        (alookup d.platform "iontorrent").getD []) ≠ []) ∧
    (chooseRecipe "auto" d = "canu" ↔
      ((alookup d.platform "illumina").getD [] ++
        (alookup d.platform "iontorrent").getD []) = []) ∧
    (recipe ≠ "auto" → chooseRecipe recipe d = recipe) := by
  refine ⟨?_, ?_, ?_⟩
  · rw [chooseRecipe, if_pos rfl]
    by_cases h : ((alookup d.platform "illumina").getD [] ++
        (alookup d.platform "iontorrent").getD []) = []
    · simp [h]
    · simp [h]
  · rw [chooseRecipe, if_pos rfl]
    by_cases h : ((alookup d.platform "illumina").getD [] ++
        (alookup d.platform "iontorrent").getD []) = []
    · simp [h]
    · simp [h]
  · intro h
    rw [chooseRecipe, if_neg h]

/-- C9 witness: with one illumina pair registered, `auto` resolves to
`unicycler`; an explicit `canu` recipe is passed through. -/
theorem chooseRecipe_auto_rule_witness :
    chooseRecipe "auto" c9Details = "unicycler" ∧
    chooseRecipe "canu" c9Details = "canu" :=
  ⟨(chooseRecipe_auto_rule c9Details "canu").1.mpr (by decide),
   (chooseRecipe_auto_rule c9Details "canu").2.2 (by decide)⟩

/-- The filtering loop partitions the records by the keep test, in order. -/
theorem filterContigs_fold (sD lD : List (String × ℚ × ℚ)) (minLen : Nat) (minCov : ℚ) :
    ∀ (records : List (String × String)) (acc : List (String × String) × List (String × String)),
      records.foldl (contigStep sD lD minLen minCov) acc =
        (acc.1 ++ records.filter (contigKeep sD lD minLen minCov),
         acc.2 ++ records.filter (fun r => !contigKeep sD lD minLen minCov r)) := by
  intro records
  induction records with
  | nil => intro acc; simp
  | cons r rest ih =>
    intro acc
    by_cases hk : contigKeep sD lD minLen minCov r = true
    · rw [List.foldl_cons, ih, contigStep, if_pos hk, List.filter_cons_of_pos hk,
        List.filter_cons_of_neg (by simp [hk])]
      simp
    · rw [List.foldl_cons, ih, contigStep, if_neg hk,
        List.filter_cons_of_neg (by simpa using hk),
        List.filter_cons_of_pos (by simpa using hk)]
      simp

/-- C6 (amended): in `filterContigsByMinLength`, a contig record is kept if
and only if its length is at least the minimum *and* (no coverage data was
computed for any contig — both depth dicts empty — or its coverage is at
least the minimum), where a contig absent from a nonempty depth dict gets
coverage `0` (the own-contig coverage being the short-read mean depth,
raised to the long-read mean depth when larger); all other records go to the
below-threshold archive, none are dropped. -/
theorem filterContigs_keep_iff (records : List (String × String))
    (sD lD : List (String × ℚ × ℚ)) (minLen : Nat) (minCov : ℚ) (rec : String × String) :
    (rec ∈ (filterContigsByMinLength records sD lD minLen minCov).1 ↔
      rec ∈ records ∧ minLen ≤ rec.2.length ∧
        ((sD = [] ∧ lD = []) ∨ minCov ≤ contigCoverageOf sD lD rec.1)) ∧
    (rec ∈ (filterContigsByMinLength records sD lD minLen minCov).2 ↔
      rec ∈ records ∧ ¬(minLen ≤ rec.2.length ∧
        ((sD = [] ∧ lD = []) ∨ minCov ≤ contigCoverageOf sD lD rec.1))) := by
  have hkeep : ∀ r : String × String,
      contigKeep sD lD minLen minCov r = true ↔
        (minLen ≤ r.2.length ∧
          ((sD = [] ∧ lD = []) ∨ minCov ≤ contigCoverageOf sD lD r.1)) := by
    intro r
    rw [contigKeep]
    simp [List.isEmpty_iff]
  rw [filterContigsByMinLength, filterContigs_fold]
  constructor
  · simp only [List.nil_append, List.mem_filter]
    rw [hkeep rec]
  · simp only [List.nil_append, List.mem_filter]
    have hneg : (!contigKeep sD lD minLen minCov rec) = true ↔
        ¬(minLen ≤ rec.2.length ∧
          ((sD = [] ∧ lD = []) ∨ minCov ≤ contigCoverageOf sD lD rec.1)) := by
      rw [← hkeep rec]
      simp
    rw [hneg]

/-- C6 witness: with nonempty short-read depth data lacking contig `B`,
record `B` of sufficient length is archived, while `A` (coverage 10 ≥ 5) is
kept. -/
theorem filterContigs_keep_iff_witness :
    ("B", "AC") ∈ (filterContigsByMinLength [("A", "AC"), ("B", "AC")]
        [("A", 10, 1)] [] 1 5).2 ∧
    ("A", "AC") ∈ (filterContigsByMinLength [("A", "AC"), ("B", "AC")]
        [("A", 10, 1)] [] 1 5).1 :=
  ⟨(filterContigs_keep_iff [("A", "AC"), ("B", "AC")] [("A", 10, 1)] [] 1 5
      ("B", "AC")).2.mpr (by decide),
   (filterContigs_keep_iff [("A", "AC"), ("B", "AC")] [("A", 10, 1)] [] 1 5
      ("A", "AC")).1.mpr (by decide)⟩

/-- C6 counterexample: contig `B` is absent from the (nonempty) short-read
depth data; the claim says it therefore counts as having *no coverage data*
and must be kept (its length 2 meets the minimum 1), but the code treats it
as coverage `0 < 5` and archives it. -/
theorem filterContigs_counterexample :
    filterContigsByMinLength [("A", "AC"), ("B", "AC")] [("A", 10, 1)] [] 1 5 =
      ([("A", "AC")], [("B", "AC")]) ∧
    alookup ([("A", ((10 : ℚ), (1 : ℚ)))]) "B" = none ∧
    1 ≤ ("AC" : String).length := by
  refine ⟨by rfl, by rfl, by decide⟩

/-- Under the hypothesis that no contig's mean depth lies in the
`[0.5, 1.5] ×` band around the overall mean, the one-fold accumulation stays
at `(0, 0)`. -/
theorem oneXFold_empty_band (g : DepthGroupState) (lb ub : ℚ)
    (h : ∀ p ∈ g.readDepth, ¬(lb ≤ p.2 ∧ p.2 ≤ ub)) :
    oneXFold g lb ub = (0, 0) := by
  rw [oneXFold]
  have : ∀ (l : List (String × ℚ)), (∀ p ∈ l, ¬(lb ≤ p.2 ∧ p.2 ≤ ub)) →
      ∀ acc : ℚ × Nat,
        l.foldl
          (fun acc cm =>
            if lb ≤ cm.2 ∧ cm.2 ≤ ub then
              let ln := (alookup g.contigLength cm.1).getD 0
              (acc.1 + cm.2 * (ln : ℚ), acc.2 + ln)
            else acc)
          acc = acc := by
    intro l
    induction l with
    | nil => intro _ acc; rfl
    | cons p rest ih =>
      intro hl acc
      rw [List.foldl_cons, if_neg (hl p (List.mem_cons_self _ _))]
      exact ih (fun q hq => hl q (List.mem_cons_of_mem _ hq)) acc
  exact this g.readDepth h (0, 0)

/-- C10: when no contig's mean depth falls within 0.5× to 1.5× of the
overall per-base mean depth, the `1×` normalization baseline defaults to 1
and every contig's normalized depth equals its raw mean depth. -/
theorem calcReadDepth_default_baseline (lines : List (String × List Int))
    (h : ∀ p ∈ (calcReadDepthGroups lines).readDepth,
      ¬(totalMeanDepthOf (calcReadDepthGroups lines) * (1 / 2) ≤ p.2 ∧
        p.2 ≤ totalMeanDepthOf (calcReadDepthGroups lines) * (3 / 2))) :
    calcReadDepth lines =
      (calcReadDepthGroups lines).readDepth.map (fun cm => (cm.1, cm.2, cm.2)) := by
  rw [calcReadDepth]
  rw [oneXFold_empty_band _ _ _ h]
  simp

/-- When a referenced file is missing, the preparation stage reports exactly
that file and touches nothing. -/
theorem registerPrepare_missing (env : Env) (d : Details) (reads : String)
    (ilv : Bool) (f : String) (h : firstMissingFile env reads = some f) :
    registerPrepare env d reads ilv = .ok (.inl f) := by
  unfold firstMissingFile at h
  unfold registerPrepare
  split at h
  · rename_i hpair
    rw [if_pos hpair]
    split at h
    · rename_i hcolon
      rw [if_pos hcolon, except_pure, except_bind_ok]
      simp only []
      split at h
      · rename_i r1 r2 heq
        unfold pyUnpack2
        rw [heq, except_bind_ok]
        split at h
        · rename_i hm1
          injection h with h
          subst h
          rw [if_pos hm1]
        · rename_i hm1
          rw [if_neg hm1]
          split at h
          · rename_i hm2
            injection h with h
            subst h
            rw [if_pos hm2]
          · cases h
      · rename_i hne
        cases h
    · cases h
  · rename_i hpair
    rw [if_neg hpair]
    split at h
    · rename_i hm
      injection h with h
      subst h
      rw [if_pos hm]
    · cases h

/-- C4 (amended): a registration call referencing a missing file returns
rejection, and the reads map, the platform index, the derived ledger, the
working directory and the filesystem are all untouched — but, the existence
check coming only after the duplicate check has recorded the spec, the raw
spec *is* appended to the `original_items` ledger, and a
`file does not exist` problem is recorded at registry level. -/
theorem registerReads_missing_file (env : Env) (d : Details) (reads : String)
    (platform : Option String) (ilv : Bool) (sup : Option String) (f : String)
    (h1 : reads ∉ d.original_items)
    (h2 : firstMissingFile env reads = some f) :
    registerReads env d reads platform ilv sup =
      .ok (none,
        { d with
          original_items := d.original_items ++ [reads]
          problem := d.problem ++ ["file does not exist: " ++ f] },
        env) := by
  unfold registerReads
  rw [if_neg h1]
  show (registerPrepare env {d with original_items := d.original_items ++ [reads]} reads ilv
      >>= _) = _
  rw [registerPrepare_missing env _ reads ilv f h2, except_bind_ok]

/-- C4 witness: registering the nonexistent `missing.fastq` on a fresh
registry is rejected with the spec recorded in `original_items` and a
problem note, everything else untouched. -/
theorem registerReads_missing_file_witness :
    registerReads {fs := []} mainInitDetails "missing.fastq" (some "illumina") false none =
      .ok (none,
        { mainInitDetails with
          original_items := ["missing.fastq"]
          problem := ["file does not exist: missing.fastq"] },
        {fs := []}) :=
  registerReads_missing_file {fs := []} mainInitDetails "missing.fastq" (some "illumina")
    false none "missing.fastq" (by decide) (by rfl)

/-- C4 counterexample: the claim says the registry state after a
missing-file rejection is exactly the pre-call state; on a fresh registry
the call changes the `original_items` ledger from `[]` to
`["missing.fastq"]`. -/
theorem registerReads_missing_file_counterexample :
    (registerReads {fs := []} mainInitDetails "missing.fastq" (some "illumina") false
        none).map (fun r => (r.1, r.2.1.original_items)) =
      .ok (none, ["missing.fastq"]) ∧
    (["missing.fastq"] : List String) ≠ mainInitDetails.original_items :=
  ⟨by rfl, by decide⟩

/-- C10 witness: two contigs of depths 1 and 100 (overall mean 50.5, band
`[25.25, 75.75]`) both fall outside the band, so both keep their raw mean
depth as normalized depth. -/
theorem calcReadDepth_default_baseline_witness :
    calcReadDepth [("A", [1]), ("B", [100])] =
      [("A", mkRat 1 1, mkRat 1 1), ("B", mkRat 100 1, mkRat 100 1)] := by
  have h := calcReadDepth_default_baseline [("A", [1]), ("B", [100])] ?_
  · exact h.trans (by rfl)
  · intro p hp
    have hrd : (calcReadDepthGroups [("A", [1]), ("B", [100])]).readDepth =
        [("A", mkRat 1 1), ("B", mkRat 100 1)] := by rfl
    have htm : totalMeanDepthOf (calcReadDepthGroups [("A", [1]), ("B", [100])]) =
        mkRat 101 2 := by rfl
    rw [hrd] at hp
    rw [htm]
    rcases List.mem_cons.mp hp with hpe | hp2
    · subst hpe
      norm_num [Rat.mkRat_eq_divInt, Rat.divInt_eq_div]
    · rcases List.mem_cons.mp hp2 with hpe | hnil
      · subst hpe
        norm_num [Rat.mkRat_eq_divInt, Rat.divInt_eq_div]
      · cases hnil

/-- A found key is among the keys. -/
theorem alookup_some_mem {α : Type} {l : List (String × α)} {k : String} {v : α}
    (h : alookup l k = some v) : k ∈ l.map Prod.fst := by
  induction l with
  | nil => simp [alookup, List.find?] at h
  | cons p rest ih =>
    obtain ⟨k', v'⟩ := p
    by_cases hk : (k' == k) = true
    · have hk2 : k' = k := by simpa using hk
      simp only [List.map_cons, List.mem_cons]
      exact Or.inl hk2.symm
    · simp only [alookup, List.find?, hk] at h
      exact List.mem_cons_of_mem _ (ih h)

/-- `aset` keys: unchanged when the key is present, appended otherwise. -/
theorem aset_keys {α : Type} (l : List (String × α)) (k : String) (v : α) :
    (aset l k v).map Prod.fst =
      if k ∈ l.map Prod.fst then l.map Prod.fst else l.map Prod.fst ++ [k] := by
  induction l with
  | nil => simp [aset]
  | cons p rest ih =>
    obtain ⟨k', v'⟩ := p
    by_cases hk : (k' == k) = true
    · have hk' : k' = k := by simpa using hk
      simp [aset, hk, hk']
    · have hk' : k' ≠ k := by simpa using hk
      simp only [aset, hk, Bool.false_eq_true, if_false, List.map_cons, ih]
      by_cases hmem : k ∈ rest.map Prod.fst
      · simp [hmem, Ne.symm hk']
      · simp [hmem, Ne.symm hk']

/-- `sameRegistryShape` is transitive. -/
theorem sameRegistryShape_trans {d1 d2 d3 : Details}
    (h12 : sameRegistryShape d1 d2) (h23 : sameRegistryShape d2 d3) :
    sameRegistryShape d1 d3 :=
  ⟨h23.1.trans h12.1, h23.2.1.trans h12.2.1, h23.2.2.trans h12.2.2⟩

/-- A successful per-entry field update preserves the registry shape. -/
theorem updateReads_shape {d d' : Details} {item : String} {f : ReadStruct → ReadStruct}
    (h : updateReads d item f = .ok d') : sameRegistryShape d d' := by
  unfold updateReads at h
  cases hl : alookup d.reads item with
  | none => rw [hl] at h; cases h
  | some r =>
    rw [hl] at h
    injection h with h
    subst h
    refine ⟨rfl, rfl, ?_⟩
    rw [aset_keys, if_pos (alookup_some_mem hl)]

/-- `studyFastaReads` preserves the registry shape: it only rewrites fields
of the studied entry and possibly the `fasta` platform index. -/
theorem studyFastaReads_shape {fs : FS} {item : String} {d d' : Details}
    (h : studyFastaReads fs item d = .ok d') : sameRegistryShape d d' := by
  unfold studyFastaReads at h
  cases hc : fsLookup fs item with
  | none => rw [hc] at h; cases h
  | some content =>
    rw [hc] at h
    simp only [] at h
    split at h
    · cases h
    · split at h
      · cases h
      · rename_i sid hsid
        cases hu : updateReads d item
            (fun r =>
              { r with
                avg_len := some ((fastaScan content).total / (fastaScan content).readNumber)
                max_read_len := some (fastaScan content).maxLen
                min_read_len := some (fastaScan content).minLen
                num_reads := some (fastaScan content).readNumber
                sample_read_id := some sid
                platform := "fasta"
                inferred_platform := some (inferPlatform sid ((fastaScan content).maxLen : ℚ))
                length_class :=
                  if MAX_SHORT_READ_LENGTH ≤ (fastaScan content).maxLen then "long"
                  else "short" }) with
        | error e => rw [hu, except_bind_error] at h; cases h
        | ok d1 =>
          rw [hu, except_bind_ok] at h
          have h1 := updateReads_shape hu
          split at h
          · cases h
          · split at h
            · injection h with h
              subst h
              exact h1
            · injection h with h
              subst h
              exact ⟨h1.1, h1.2.1, h1.2.2⟩

/-- `studySingleReads` preserves the registry shape. -/
theorem studySingleReads_shape {fs : FS} {item : String} {d d' : Details}
    (h : studySingleReads fs item d = .ok d') : sameRegistryShape d d' := by
  unfold studySingleReads at h
  cases hu : updateReads d item (fun r => {r with layout := "single-end", num_reads := some 0})
      with
  | error e => rw [hu, except_bind_error] at h; cases h
  | ok d0 =>
    rw [hu, except_bind_ok] at h
    have h0 := updateReads_shape hu
    cases hc : fsLookup fs item with
    | none => rw [hc] at h; cases h
    | some content =>
      rw [hc] at h
      simp only [] at h
      split at h
      · exact sameRegistryShape_trans h0 (studyFastaReads_shape h)
      · cases hs : singleScan content (pySplitHead ' ' (content.headD "")) with
        | error e => rw [hs, except_bind_error] at h; cases h
        | ok s =>
          rw [hs, except_bind_ok] at h
          split at h
          · injection h with h
            subst h
            exact h0
          · exact sameRegistryShape_trans h0 (updateReads_shape h)

/-- `studyPairedReads` preserves the registry shape. -/
theorem studyPairedReads_shape {fs : FS} {item : String} {d d' : Details}
    (h : studyPairedReads fs item d = .ok d') : sameRegistryShape d d' := by
  unfold studyPairedReads at h
  cases hu : updateReads d item
      (fun r => {r with layout := "paired-end", avg_len := some 0, length_class := "na",
                        num_reads := some 0}) with
  | error e => rw [hu, except_bind_error] at h; cases h
  | ok d0 =>
    rw [hu, except_bind_ok] at h
    have h0 := updateReads_shape hu
    cases hp : pyUnpack2 item ':' with
    | error e => rw [hp, except_bind_error] at h; cases h
    | ok f12 =>
      rw [hp, except_bind_ok] at h
      obtain ⟨f1, f2⟩ := f12
      simp only [] at h
      split at h
      · cases h
      · cases h
      · rename_i content1 content2 hc1 hc2
        split at h
        · cases hf1 : studyFastaReads fs f1 d0 with
          | error e => rw [hf1, except_bind_error] at h; cases h
          | ok d1 =>
            rw [hf1, except_bind_ok] at h
            exact sameRegistryShape_trans h0
              (sameRegistryShape_trans (studyFastaReads_shape hf1) (studyFastaReads_shape h))
        · cases hs : pairedScan content1 content2 (pySplitHead ' ' (content1.headD "")) with
          | error e => rw [hs, except_bind_error] at h; cases h
          | ok s =>
            rw [hs, except_bind_ok] at h
            split at h
            · cases h
            · cases hu2 : updateReads d0 item
                  (fun r =>
                    { r with
                      problem := r.problem ++ s.problems
                      avg_len := some (s.total / (s.readNumber * 2))
                      max_read_len := some s.maxLen
                      min_read_len := some s.minLen
                      num_reads := some s.readNumber
                      sample_read_id := some s.sample
                      inferred_platform := some (inferPlatform s.sample (s.maxLen : ℚ))
                      length_class :=
                        if MAX_SHORT_READ_LENGTH ≤ s.maxLen then "long" else "short" }) with
              | error e => rw [hu2, except_bind_error] at h; cases h
              | ok d1 =>
                rw [hu2, except_bind_ok] at h
                have h1 := updateReads_shape hu2
                split at h
                · exact sameRegistryShape_trans h0
                    (sameRegistryShape_trans h1 (updateReads_shape h))
                · injection h with h
                  subst h
                  exact sameRegistryShape_trans h0 h1

/-- `bz2Step` leaves the ledger, the problems and the reads map alone. -/
theorem bz2Step_fields (e : Env) (d : Details) (f : String) :
    ((bz2Step e d f).2.1).original_items = d.original_items ∧
    ((bz2Step e d f).2.1).problem = d.problem ∧
    ((bz2Step e d f).2.1).reads = d.reads := by
  unfold bz2Step
  split
  · exact ⟨rfl, rfl, rfl⟩
  · exact ⟨rfl, rfl, rfl⟩

/-- A successful preparation stage leaves the ledger, the problems and the
reads map alone (it only symlinks, decompresses and names). -/
theorem registerPrepare_inr {env : Env} {d : Details} {reads : String} {ilv : Bool}
    {name : String} {rs : ReadStruct} {d2 : Details} {env2 : Env}
    (h : registerPrepare env d reads ilv = .ok (.inr (name, rs, d2, env2))) :
    d2.original_items = d.original_items ∧ d2.problem = d.problem ∧ d2.reads = d.reads := by
  unfold registerPrepare at h
  split at h
  · split at h
    · rw [except_pure, except_bind_ok] at h
      simp only [] at h
      cases hu : pyUnpack2 reads ':' with
      | error e => rw [hu, except_bind_error] at h; cases h
      | ok r12 =>
        rw [hu, except_bind_ok] at h
        obtain ⟨r1, r2⟩ := r12
        simp only [] at h
        split at h
        · injection h with h
          cases h
        · split at h
          · injection h with h
            cases h
          · injection h with h
            injection h with h
            injection h with h1 h
            injection h with h2 h
            injection h with h3 h4
            subst h3
            have p1 := bz2Step_fields (envSymlink (envSymlink env r1) r2) d (pySplitPath r1).2
            have p2 := bz2Step_fields
              (bz2Step (envSymlink (envSymlink env r1) r2) d (pySplitPath r1).2).1
              (bz2Step (envSymlink (envSymlink env r1) r2) d (pySplitPath r1).2).2.1
              (pySplitPath r2).2
            exact ⟨p2.1.trans p1.1, p2.2.1.trans p1.2.1, p2.2.2.trans p1.2.2⟩
    · rw [except_bind_error] at h
      cases h
  · split at h
    · injection h with h
      cases h
    · injection h with h
      injection h with h
      injection h with h1 h
      injection h with h2 h
      injection h with h3 h4
      subst h3
      exact ⟨rfl, rfl, rfl⟩

/-- The final study dispatch of a registration preserves the registry shape
and returns the registered name with the environment untouched. -/
theorem studyStage_facts {env : Env} {dpre : Details} {name : String} {rs : ReadStruct}
    {res : Option String × Details × Env}
    (h : (if rs.file.length = 2 then
            studyPairedReads env.fs name dpre >>= fun d => Except.ok (some name, d, env)
          else
            studySingleReads env.fs name dpre >>= fun d => Except.ok (some name, d, env))
        = .ok res) :
    res.1 = some name ∧ res.2.2 = env ∧ sameRegistryShape dpre res.2.1 := by
  split at h
  · cases hst : studyPairedReads env.fs name dpre with
    | error e => rw [hst, except_bind_error] at h; cases h
    | ok d5 =>
      rw [hst, except_bind_ok] at h
      injection h with h
      subst h
      exact ⟨rfl, rfl, studyPairedReads_shape hst⟩
  · cases hst : studySingleReads env.fs name dpre with
    | error e => rw [hst, except_bind_error] at h; cases h
    | ok d5 =>
      rw [hst, except_bind_ok] at h
      injection h with h
      subst h
      exact ⟨rfl, rfl, studySingleReads_shape hst⟩

/-- A successful `registerFinish` without supersession: the result names the
new entry, keeps the environment, leaves `original_items` alone, adds at
most the duplicate-registered-name note to the problems, and either rewrites
an existing reads-map key in place or appends the new one. -/
theorem registerFinish_facts {env : Env} {d : Details} {name : String} {rs : ReadStruct}
    {platform : Option String} {res : Option String × Details × Env}
    (h : registerFinish env d name rs platform none = .ok res) :
    res.1 = some name ∧ res.2.2 = env ∧
    res.2.1.original_items = d.original_items ∧
    (res.2.1.problem = d.problem ∨
      res.2.1.problem = d.problem ++
        ["registered name " ++ name ++ " already in details[reads]"]) ∧
    ((name ∈ d.reads.map Prod.fst ∧
        res.2.1.reads.map Prod.fst = d.reads.map Prod.fst) ∨
     (name ∉ d.reads.map Prod.fst ∧
        res.2.1.reads.map Prod.fst = d.reads.map Prod.fst ++ [name])) := by
  unfold registerFinish at h
  cases platform with
  | none =>
    simp only [] at h
    rw [except_bind_ok] at h
    simp only [] at h
    by_cases ha : (alookup d.reads name).isSome = true
    · rw [if_pos ha] at h
      have hf := studyStage_facts h
      refine ⟨hf.1, hf.2.1, hf.2.2.1, Or.inr hf.2.2.2.1, ?_⟩
      have hkeys := hf.2.2.2.2
      rw [aset_keys] at hkeys
      try simp only [] at hkeys
      by_cases hm : name ∈ d.reads.map Prod.fst
      · rw [if_pos hm] at hkeys
        exact Or.inl ⟨hm, hkeys⟩
      · rw [if_neg hm] at hkeys
        exact Or.inr ⟨hm, hkeys⟩
    · rw [if_neg ha] at h
      have hf := studyStage_facts h
      refine ⟨hf.1, hf.2.1, hf.2.2.1, Or.inl hf.2.2.2.1, ?_⟩
      have hkeys := hf.2.2.2.2
      rw [aset_keys] at hkeys
      try simp only [] at hkeys
      by_cases hm : name ∈ d.reads.map Prod.fst
      · rw [if_pos hm] at hkeys
        exact Or.inl ⟨hm, hkeys⟩
      · rw [if_neg hm] at hkeys
        exact Or.inr ⟨hm, hkeys⟩
  | some p =>
    simp only [] at h
    rw [except_bind_ok] at h
    simp only [] at h
    by_cases ha : (alookup d.reads name).isSome = true
    · rw [if_pos ha] at h
      have hf := studyStage_facts h
      refine ⟨hf.1, hf.2.1, hf.2.2.1, Or.inr hf.2.2.2.1, ?_⟩
      have hkeys := hf.2.2.2.2
      rw [aset_keys] at hkeys
      try simp only [] at hkeys
      by_cases hm : name ∈ d.reads.map Prod.fst
      · rw [if_pos hm] at hkeys
        exact Or.inl ⟨hm, hkeys⟩
      · rw [if_neg hm] at hkeys
        exact Or.inr ⟨hm, hkeys⟩
    · rw [if_neg ha] at h
      have hf := studyStage_facts h
      refine ⟨hf.1, hf.2.1, hf.2.2.1, Or.inl hf.2.2.2.1, ?_⟩
      have hkeys := hf.2.2.2.2
      rw [aset_keys] at hkeys
      try simp only [] at hkeys
      by_cases hm : name ∈ d.reads.map Prod.fst
      · rw [if_pos hm] at hkeys
        exact Or.inl ⟨hm, hkeys⟩
      · rw [if_neg hm] at hkeys
        exact Or.inr ⟨hm, hkeys⟩

/-- The duplicate-registration problem text is never the
registered-name-already text, whatever the names. -/
theorem dupMsg_ne_alreadyMsg (a b : String) :
    ("duplicate registration of reads " ++ a) ≠
      ("registered name " ++ b ++ " already in details[reads]") := by
  intro hcontra
  have hd := congrArg String.data hcontra
  simp only [String.data_append] at hd
  have h1 : (("duplicate registration of reads ".data ++ a.data).head? = some 'd') := rfl
  rw [hd] at h1
  have h2 : ((("registered name ".data ++ b.data) ++
      " already in details[reads]".data).head? = some 'r') := rfl
  rw [h1] at h2
  injection h2 with h2
  exact absurd h2 (by decide)

/-- A successful non-duplicate registration without supersession appends
the spec to `original_items` exactly once, leaves the registry problems
alone except possibly one registered-name-already note, and installs the
registered name as a reads-map key (in place when it already existed,
appended otherwise). -/
theorem registerReads_success_facts {env env1 : Env} {d d1 : Details} {reads name : String}
    {platform : Option String} {ilv : Bool}
    (h0 : reads ∉ d.original_items)
    (h : registerReads env d reads platform ilv none = .ok (some name, d1, env1)) :
    d1.original_items = d.original_items ++ [reads] ∧
    (d1.problem = d.problem ∨
      d1.problem = d.problem ++
        ["registered name " ++ name ++ " already in details[reads]"]) ∧
    ((name ∈ d.reads.map Prod.fst ∧
        d1.reads.map Prod.fst = d.reads.map Prod.fst) ∨
     (name ∉ d.reads.map Prod.fst ∧
        d1.reads.map Prod.fst = d.reads.map Prod.fst ++ [name])) := by
  unfold registerReads at h
  rw [if_neg h0] at h
  simp only [] at h
  cases hp : registerPrepare env {d with original_items := d.original_items ++ [reads]}
      reads ilv with
  | error e => rw [hp, except_bind_error] at h; cases h
  | ok v =>
    rw [hp, except_bind_ok] at h
    cases v with
    | inl m =>
      simp only [] at h
      injection h with h
      injection h with h1 h2
      exact Option.noConfusion h1
    | inr q =>
      obtain ⟨rn, rs, d2, env2⟩ := q
      simp only [] at h
      have hprep := registerPrepare_inr hp
      have hf := registerFinish_facts h
      have hn : some name = some rn := hf.1
      injection hn with hn
      subst hn
      have horig : d2.original_items = d.original_items ++ [reads] := hprep.1
      refine ⟨hf.2.2.1.trans horig, ?_, ?_⟩
      · rcases hf.2.2.2.1 with h1 | h1
        · exact Or.inl (h1.trans hprep.2.1)
        · exact Or.inr (by rw [h1, hprep.2.1])
      · rcases hf.2.2.2.2 with ⟨hm, hk⟩ | ⟨hm, hk⟩
        · rw [hprep.2.2] at hm hk
          exact Or.inl ⟨hm, hk⟩
        · rw [hprep.2.2] at hm hk
          exact Or.inr ⟨hm, hk⟩

/-- C8: registering the identical raw spec twice (the first call
succeeding): the second call is rejected with exactly one
duplicate-registration problem appended and nothing else changed; the spec
then appears exactly once in `original_items`, the registered name exactly
once among the reads-map keys, and the duplicate problem exactly once among
the registry problems. -/
theorem registerReads_duplicate_rejection {env env1 : Env} {d d1 : Details}
    {reads name : String} {platform : Option String} {ilv : Bool}
    (h0 : reads ∉ d.original_items)
    (hnodup : (d.reads.map Prod.fst).Nodup)
    (hmsg : ("duplicate registration of reads " ++ reads) ∉ d.problem)
    (h : registerReads env d reads platform ilv none = .ok (some name, d1, env1)) :
    registerReads env1 d1 reads platform ilv none =
      .ok (none,
        {d1 with problem := d1.problem ++ ["duplicate registration of reads " ++ reads]},
        env1) ∧
    d1.original_items.count reads = 1 ∧
    (d1.reads.map Prod.fst).count name = 1 ∧
    d1.problem.count ("duplicate registration of reads " ++ reads) = 0 := by
  have hs := registerReads_success_facts h0 h
  refine ⟨?_, ?_, ?_, ?_⟩
  · unfold registerReads
    rw [if_pos (by rw [hs.1]; exact List.mem_append_right _ (List.mem_singleton_self _))]
  · rw [hs.1, List.count_append]
    rw [List.count_eq_zero.mpr h0]
    simp
  · rcases hs.2.2 with ⟨hm, hk⟩ | ⟨hm, hk⟩
    · rw [hk]
      exact List.count_eq_one_of_mem hnodup hm
    · rw [hk, List.count_append]
      rw [List.count_eq_zero.mpr hm]
      simp
  · rcases hs.2.1 with h1 | h1
    · rw [h1]
      exact List.count_eq_zero.mpr hmsg
    · rw [h1, List.count_append]
      rw [List.count_eq_zero.mpr hmsg]
      rw [List.count_eq_zero.mpr (by
        intro hmem
        rw [List.mem_singleton] at hmem
        exact dupMsg_ne_alreadyMsg reads name hmem)]

/-- C8 witness: registering `a.fastq` twice on a fresh registry: the first
call succeeds; the second is rejected with exactly the duplicate problem
appended, and the registry holds the spec once, the reads-map key once, and
no duplicate problem before the rejection. -/
theorem registerReads_duplicate_rejection_witness :
    ∃ (d1 : Details) (env1 : Env),
      registerReads c8Env mainInitDetails "a.fastq" (some "illumina") false none =
        .ok (some "a.fastq", d1, env1) ∧
      registerReads env1 d1 "a.fastq" (some "illumina") false none =
        .ok (none,
          {d1 with problem := d1.problem ++
            ["duplicate registration of reads " ++ "a.fastq"]},
          env1) ∧
      d1.original_items.count "a.fastq" = 1 ∧
      (d1.reads.map Prod.fst).count "a.fastq" = 1 ∧
      d1.problem.count ("duplicate registration of reads " ++ "a.fastq") = 0 := by
  have hex : ∃ (da : Details) (ea : Env),
      registerReads c8Env mainInitDetails "a.fastq" (some "illumina") false none =
        .ok (some "a.fastq", da, ea) := ⟨_, _, rfl⟩
  obtain ⟨d1, env1, hfirst⟩ := hex
  have hthm := registerReads_duplicate_rejection (by decide) (by decide) (by decide) hfirst
  exact ⟨d1, env1, hfirst, hthm.1, hthm.2.1, hthm.2.2.1, hthm.2.2.2⟩

end P3Assembly
